import Mathlib

/-
  Verification of the StreamGift token-streaming escrow engine
  (src/contracts/sources/stream.move) against its specification.

  Shallow embedding conventions:
  * Move `u64` values are `Nat` together with explicit 2^64 range checks;
    every arithmetic operation that can abort in Move (underflow, overflow,
    division handled separately) is modelled in the `Except MoveErr` monad,
    `.error` meaning the whole transaction aborts with no state change.
  * `aptos_std::table` is modelled as an association list; `table::add`
    aborts when the key is already present, exactly as in Move.
  * Addresses are `Nat`; `vector<u8>` social hashes are `List Nat`.
  * Coin values are their `u64` amounts; `coin::extract` aborts when the
    pooled balance is insufficient (`.coinErr`).
  * `timestamp::now_seconds()` is passed to each operation as an explicit
    `now` parameter.
  * Event emission is not modelled; the external coin deposits performed by
    an operation are returned as an explicit transfer list instead, which
    carries the same information as the emitted events.
-/

set_option maxHeartbeats 1000000

namespace StreamGift

/-- Largest value representable in a Move `u64`. -/
def U64_MAX : Nat := 18446744073709551615

/-- Abort reasons of a Move transaction in this module: an `assert!` with one
of the module's error constants, an arithmetic overflow/underflow, a failed
`coin::extract`, or a `table::add` on an existing key. -/
inductive MoveErr where
  | code (e : Nat)
  | arith
  | coinErr
  | tableErr
deriving DecidableEq

deriving instance DecidableEq for Except

/-- Result of a (sub)computation that can abort. -/
abbrev MR (α : Type) := Except MoveErr α

/-- Range check used by checked u64 addition and multiplication. -/
def u64chk (n : Nat) : MR Nat := if n ≤ U64_MAX then .ok n else .error .arith

/-- Move u64 addition: aborts on overflow. -/
def u64add (a b : Nat) : MR Nat := u64chk (a + b)

/-- Move u64 multiplication: aborts on overflow. -/
def u64mul (a b : Nat) : MR Nat := u64chk (a * b)

/-- Move u64 subtraction: aborts on underflow. -/
def u64sub (a b : Nat) : MR Nat := if b ≤ a then .ok (a - b) else .error .arith

-- Error constants of the module (src/contracts/sources/stream.move:17-31).
def E_NOT_INITIALIZED : Nat := 1
def E_ALREADY_INITIALIZED : Nat := 2
def E_STREAM_NOT_FOUND : Nat := 3
def E_NOT_STREAM_SENDER : Nat := 4
def E_NOT_STREAM_RECIPIENT : Nat := 5
def E_STREAM_NOT_ACTIVE : Nat := 6
def E_INSUFFICIENT_BALANCE : Nat := 7
def E_INVALID_DURATION : Nat := 8
def E_INVALID_AMOUNT : Nat := 9
def E_STREAM_NOT_STARTED : Nat := 10
def E_CLAIM_AMOUNT_TOO_HIGH : Nat := 11
def E_STREAM_ALREADY_CANCELLED : Nat := 12
def E_ZERO_CLAIMABLE : Nat := 13
def E_NOT_ADMIN : Nat := 14
def E_SOCIAL_HASH_MISMATCH : Nat := 15

-- Status constants (src/contracts/sources/stream.move:36-39).
def STATUS_ACTIVE : Nat := 1
def STATUS_PAUSED : Nat := 2
def STATUS_COMPLETED : Nat := 3
def STATUS_CANCELLED : Nat := 4

-- Fee constants (src/contracts/sources/stream.move:41-42).
def PROTOCOL_FEE_BPS : Nat := 25
def BPS_DENOMINATOR : Nat := 10000

/-- The `Stream` struct (src/contracts/sources/stream.move:48-62). -/
structure Stream where
  id : Nat
  sender : Nat
  recipient : Nat
  recipient_social_hash : List Nat
  total_amount : Nat
  claimed_amount : Nat
  rate_per_second : Nat
  start_time : Nat
  end_time : Nat
  last_claim_time : Nat
  message : String
  status : Nat
  created_at : Nat
deriving DecidableEq

-- `aptos_std::table` modelled as an association list.

/-- Model of `table::contains`. -/
def tcontains {K V : Type} [DecidableEq K] (t : List (K × V)) (k : K) : Bool :=
  t.any (fun p => p.1 = k)

/-- Model of `table::borrow` (as an `Option`). -/
def tget {K V : Type} [DecidableEq K] (t : List (K × V)) (k : K) : Option V :=
  (t.find? (fun p => p.1 = k)).map Prod.snd

/-- Model of `table::add`: aborts when the key is already present. -/
def tadd {K V : Type} [DecidableEq K] (t : List (K × V)) (k : K) (v : V) :
    MR (List (K × V)) :=
  if tcontains t k then .error .tableErr else .ok ((k, v) :: t)

/-- Model of `table::borrow_mut` followed by overwriting the entry. -/
def tset {K V : Type} [DecidableEq K] (t : List (K × V)) (k : K) (v : V) :
    List (K × V) :=
  t.map (fun p => if p.1 = k then (k, v) else p)

/-- Model of `table::remove` (discarding the removed value). -/
def tremove {K V : Type} [DecidableEq K] (t : List (K × V)) (k : K) :
    List (K × V) :=
  t.filter (fun p => p.1 ≠ k)

/-- The `UserStreamIndex` resource (src/contracts/sources/stream.move:76-79). -/
structure UserStreamIndex where
  outgoing_stream_ids : List Nat
  incoming_stream_ids : List Nat
deriving DecidableEq

/-- The `StreamStore` resource (src/contracts/sources/stream.move:64-74);
event handles are not modelled, `escrow` is the u64 value of the pooled coin. -/
structure StreamStore where
  streams : List (Nat × Stream)
  next_stream_id : Nat
  escrow : Nat
  fee_collected : Nat
  admin : Nat
deriving DecidableEq

/-- The `RecipientMapping` resource (src/contracts/sources/stream.move:81-84). -/
structure RecipientMapping where
  social_to_address : List (List Nat × Nat)
  address_to_social : List (Nat × List Nat)
deriving DecidableEq

/-- Global state of the module: the `StreamStore` and `RecipientMapping`
resources at the contract address, plus the per-user `UserStreamIndex`
resources keyed by user address. -/
structure GState where
  store : StreamStore
  mapping : RecipientMapping
  indexes : List (Nat × UserStreamIndex)
deriving DecidableEq

/-- External coin deposits performed by one operation: (address, amount). -/
abbrev Transfers := List (Nat × Nat)

/-- State produced by `initialize` (src/contracts/sources/stream.move:126-147). -/
def initState (admin : Nat) : GState :=
  { store := { streams := [], next_stream_id := 1, escrow := 0,
               fee_collected := 0, admin := admin },
    mapping := { social_to_address := [], address_to_social := [] },
    indexes := [] }

/-- Sequencing of abortable subcomputations inside one Move transaction:
an abort of the first part aborts the whole transaction. -/
def mbind {α β : Type} (x : MR α) (f : α → MR β) : MR β :=
  match x with
  | .error e => .error e
  | .ok a => f a

/-- Pattern `assert!(table::contains ...)` followed by `table::borrow`:
aborts with `err` when the key is absent. -/
def getOr {α β : Type} (o : Option α) (err : MoveErr) (f : α → MR β) : MR β :=
  match o with
  | none => .error err
  | some a => f a

@[simp] lemma mbind_ok_left {α β : Type} (a : α) (f : α → MR β) :
    mbind (.ok a) f = f a := rfl

@[simp] lemma mbind_error_left {α β : Type} (e : MoveErr) (f : α → MR β) :
    mbind (.error e) f = .error e := rfl

@[simp] lemma getOr_some {α β : Type} (a : α) (err : MoveErr) (f : α → MR β) :
    getOr (some a) err f = f a := rfl

@[simp] lemma getOr_none {α β : Type} (err : MoveErr) (f : α → MR β) :
    getOr (none : Option α) err f = .error err := rfl

lemma mbind_eq_ok {α β : Type} {x : MR α} {f : α → MR β} {b : β}
    (h : mbind x f = .ok b) : ∃ a, x = .ok a ∧ f a = .ok b := by
  cases x with
  | error e => exact absurd h (by simp)
  | ok a => exact ⟨a, rfl, h⟩

lemma getOr_eq_ok {α β : Type} {o : Option α} {err : MoveErr} {f : α → MR β}
    {b : β} (h : getOr o err f = .ok b) : ∃ a, o = some a ∧ f a = .ok b := by
  cases o with
  | none => exact absurd h (by simp)
  | some a => exact ⟨a, rfl, h⟩

/-- The accrual calculator `calculate_claimable_internal`
(src/contracts/sources/stream.move:613-635), with `timestamp::now_seconds()`
as the explicit parameter `now`.  Each u64 subtraction / multiplication is
checked and aborts the transaction on underflow / overflow. -/
def calculate_claimable_internal (stream : Stream) (now : Nat) : MR Nat :=
  if stream.status ≠ STATUS_ACTIVE then .ok 0
  else if now < stream.start_time then .ok 0
  else
    -- effective_time of the source is inlined in the first subtraction
    mbind (u64sub (if stream.end_time < now then stream.end_time else now)
        stream.last_claim_time) fun elapsed =>
    mbind (u64mul elapsed stream.rate_per_second) fun accrued =>
    mbind (u64sub stream.total_amount stream.claimed_amount) fun remaining =>
    .ok (if remaining < accrued then remaining else accrued)

/-- Incoming-index update performed by `claim_stream`
(src/contracts/sources/stream.move:550-560): record the stream id in the
recipient index unless it is already present. -/
def claimIndexUpdate (idx : UserStreamIndex) (stream_id : Nat) :
    UserStreamIndex :=
  if stream_id ∈ idx.incoming_stream_ids then idx
  else { idx with incoming_stream_ids := idx.incoming_stream_ids ++ [stream_id] }

/-- The entry point `create_stream` (src/contracts/sources/stream.move:352-428).
The `coin::withdraw` from the sender's personal balance is outside the engine
boundary and is not modelled; the rest (fee computation, escrow merge, stream
record creation, sender index update) is translated statement by statement. -/
def create_stream (sender_addr : Nat) (recipient_address : Nat)
    (recipient_social_hash : List Nat) (amount duration_seconds start_time : Nat)
    (message : String) (now : Nat) (gs : GState) : MR (GState × Transfers) :=
  if amount = 0 then .error (.code E_INVALID_AMOUNT)
  else if duration_seconds = 0 then .error (.code E_INVALID_DURATION)
  else
    mbind (u64mul amount PROTOCOL_FEE_BPS) fun feeNum =>
    mbind (u64sub amount (feeNum / BPS_DENOMINATOR)) fun stream_amount =>
    mbind (u64add (if start_time = 0 then now else start_time) duration_seconds)
        fun end_time =>
    mbind (u64add gs.store.escrow amount) fun escrow2 =>
    mbind (u64add gs.store.fee_collected (feeNum / BPS_DENOMINATOR)) fun fee2 =>
    mbind (u64add gs.store.next_stream_id 1) fun next2 =>
    mbind (tadd gs.store.streams gs.store.next_stream_id
      { id := gs.store.next_stream_id
        sender := sender_addr
        recipient := recipient_address
        recipient_social_hash := recipient_social_hash
        total_amount := stream_amount
        claimed_amount := 0
        rate_per_second := stream_amount / duration_seconds
        start_time := if start_time = 0 then now else start_time
        end_time := end_time
        last_claim_time := if start_time = 0 then now else start_time
        message := message
        status := STATUS_ACTIVE
        created_at := now }) fun streams2 =>
    .ok ({ store := { gs.store with
               streams := streams2
               next_stream_id := next2
               escrow := escrow2
               fee_collected := fee2 }
           mapping := gs.mapping
           indexes :=
             if tcontains gs.indexes sender_addr
             then tset gs.indexes sender_addr
               { (tget gs.indexes sender_addr).getD ⟨[], []⟩ with
                 outgoing_stream_ids :=
                   ((tget gs.indexes sender_addr).getD
                     ⟨[], []⟩).outgoing_stream_ids
                   ++ [gs.store.next_stream_id] }
             else (sender_addr,
               { (tget gs.indexes sender_addr).getD ⟨[], []⟩ with
                 outgoing_stream_ids :=
                   ((tget gs.indexes sender_addr).getD
                     ⟨[], []⟩).outgoing_stream_ids
                   ++ [gs.store.next_stream_id] }) :: gs.indexes }, [])

/-- The entry point `admin_create_stream`
(src/contracts/sources/stream.move:431-499): identical accounting to
`create_stream` with an admin check, the stream attributed to
`sender_address`, and no sender index update. -/
def admin_create_stream (admin_addr : Nat)
    (sender_address recipient_address : Nat) (recipient_social_hash : List Nat)
    (amount duration_seconds start_time : Nat) (message : String) (now : Nat)
    (gs : GState) : MR (GState × Transfers) :=
  if amount = 0 then .error (.code E_INVALID_AMOUNT)
  else if duration_seconds = 0 then .error (.code E_INVALID_DURATION)
  else if gs.store.admin ≠ admin_addr then .error (.code E_NOT_ADMIN)
  else
    mbind (u64mul amount PROTOCOL_FEE_BPS) fun feeNum =>
    mbind (u64sub amount (feeNum / BPS_DENOMINATOR)) fun stream_amount =>
    mbind (u64add (if start_time = 0 then now else start_time) duration_seconds)
        fun end_time =>
    mbind (u64add gs.store.escrow amount) fun escrow2 =>
    mbind (u64add gs.store.fee_collected (feeNum / BPS_DENOMINATOR)) fun fee2 =>
    mbind (u64add gs.store.next_stream_id 1) fun next2 =>
    mbind (tadd gs.store.streams gs.store.next_stream_id
      { id := gs.store.next_stream_id
        sender := sender_address
        recipient := recipient_address
        recipient_social_hash := recipient_social_hash
        total_amount := stream_amount
        claimed_amount := 0
        rate_per_second := stream_amount / duration_seconds
        start_time := if start_time = 0 then now else start_time
        end_time := end_time
        last_claim_time := if start_time = 0 then now else start_time
        message := message
        status := STATUS_ACTIVE
        created_at := now }) fun streams2 =>
    .ok ({ store := { gs.store with
               streams := streams2
               next_stream_id := next2
               escrow := escrow2
               fee_collected := fee2 }
           mapping := gs.mapping
           indexes := gs.indexes }, [])

/-- The claim-amount cap of `claim_stream` / `admin_claim_for_recipient`
(src/contracts/sources/stream.move:272,527): `0` means claim everything
available, and over-requests are capped at the claimable ceiling. -/
def claimAmountOf (amount claimable : Nat) : Nat :=
  if amount = 0 ∨ claimable < amount then claimable else amount

/-- The entry point `claim_stream` (src/contracts/sources/stream.move:502-561). -/
def claim_stream (recipient_addr : Nat) (stream_id amount now : Nat)
    (gs : GState) : MR (GState × Transfers) :=
  getOr (tget gs.store.streams stream_id) (.code E_STREAM_NOT_FOUND) fun stream =>
  if stream.recipient ≠ recipient_addr then .error (.code E_NOT_STREAM_RECIPIENT)
  else if stream.status ≠ STATUS_ACTIVE then .error (.code E_STREAM_NOT_ACTIVE)
  else
    mbind (calculate_claimable_internal stream now) fun claimable =>
    if claimable = 0 then .error (.code E_ZERO_CLAIMABLE)
    else
      mbind (u64add stream.claimed_amount (claimAmountOf amount claimable))
          fun claimed2 =>
      if gs.store.escrow < claimAmountOf amount claimable then .error .coinErr
      else
        .ok ({ store := { gs.store with
                   streams := tset gs.store.streams stream_id
                     { stream with
                       claimed_amount := claimed2
                       last_claim_time := now
                       status := if stream.total_amount ≤ claimed2
                                 then STATUS_COMPLETED else stream.status }
                   escrow := gs.store.escrow - claimAmountOf amount claimable }
               mapping := gs.mapping
               indexes :=
                 if tcontains gs.indexes recipient_addr
                 then tset gs.indexes recipient_addr
                   (claimIndexUpdate
                     ((tget gs.indexes recipient_addr).getD ⟨[], []⟩) stream_id)
                 else (recipient_addr,
                   (claimIndexUpdate
                     ((tget gs.indexes recipient_addr).getD ⟨[], []⟩)
                     stream_id)) :: gs.indexes },
             [(recipient_addr, claimAmountOf amount claimable)])

/-- The entry point `admin_claim_for_recipient`
(src/contracts/sources/stream.move:249-290): the same claim logic executed by
the admin on behalf of `recipient_address`, without index bookkeeping. -/
def admin_claim_for_recipient (admin_addr : Nat)
    (stream_id recipient_address amount now : Nat) (gs : GState) :
    MR (GState × Transfers) :=
  if gs.store.admin ≠ admin_addr then .error (.code E_NOT_ADMIN)
  else
    getOr (tget gs.store.streams stream_id) (.code E_STREAM_NOT_FOUND) fun stream =>
    if stream.recipient ≠ recipient_address then
      .error (.code E_NOT_STREAM_RECIPIENT)
    else if stream.status ≠ STATUS_ACTIVE then .error (.code E_STREAM_NOT_ACTIVE)
    else
      mbind (calculate_claimable_internal stream now) fun claimable =>
      if claimable = 0 then .error (.code E_ZERO_CLAIMABLE)
      else
        mbind (u64add stream.claimed_amount (claimAmountOf amount claimable))
            fun claimed2 =>
        if gs.store.escrow < claimAmountOf amount claimable then .error .coinErr
        else
          .ok ({ store := { gs.store with
                     streams := tset gs.store.streams stream_id
                       { stream with
                         claimed_amount := claimed2
                         last_claim_time := now
                         status := if stream.total_amount ≤ claimed2
                                   then STATUS_COMPLETED else stream.status }
                     escrow := gs.store.escrow - claimAmountOf amount claimable }
                 mapping := gs.mapping
                 indexes := gs.indexes },
               [(recipient_address, claimAmountOf amount claimable)])

/-- The entry point `cancel_stream` (src/contracts/sources/stream.move:564-607). -/
def cancel_stream (sender_addr : Nat) (stream_id now : Nat) (gs : GState) :
    MR (GState × Transfers) :=
  getOr (tget gs.store.streams stream_id) (.code E_STREAM_NOT_FOUND) fun stream =>
  if stream.sender ≠ sender_addr then .error (.code E_NOT_STREAM_SENDER)
  else if stream.status ≠ STATUS_ACTIVE then
    .error (.code E_STREAM_ALREADY_CANCELLED)
  else
    mbind (calculate_claimable_internal stream now) fun claimable =>
    mbind (u64sub stream.total_amount stream.claimed_amount) fun rem1 =>
    mbind (u64sub rem1 claimable) fun remaining =>
    if gs.store.escrow < claimable then .error .coinErr
    else if gs.store.escrow - claimable < remaining then .error .coinErr
    else
      .ok ({ store := { gs.store with
                 streams := tset gs.store.streams stream_id
                   { stream with status := STATUS_CANCELLED }
                 escrow := gs.store.escrow - claimable - remaining }
             mapping := gs.mapping
             indexes := gs.indexes },
           (if 0 < claimable then [(stream.recipient, claimable)] else [])
           ++ (if 0 < remaining then [(sender_addr, remaining)] else []))

/-- The entry point `admin_cancel_stream`
(src/contracts/sources/stream.move:293-333): the same cancellation logic
executed by the admin on behalf of `sender_address`. -/
def admin_cancel_stream (admin_addr : Nat) (stream_id sender_address now : Nat)
    (gs : GState) : MR (GState × Transfers) :=
  if gs.store.admin ≠ admin_addr then .error (.code E_NOT_ADMIN)
  else
    getOr (tget gs.store.streams stream_id) (.code E_STREAM_NOT_FOUND) fun stream =>
    if stream.sender ≠ sender_address then .error (.code E_NOT_STREAM_SENDER)
    else if stream.status ≠ STATUS_ACTIVE then
      .error (.code E_STREAM_ALREADY_CANCELLED)
    else
      mbind (calculate_claimable_internal stream now) fun claimable =>
      mbind (u64sub stream.total_amount stream.claimed_amount) fun rem1 =>
      mbind (u64sub rem1 claimable) fun remaining =>
      if gs.store.escrow < claimable then .error .coinErr
      else if gs.store.escrow - claimable < remaining then .error .coinErr
      else
        .ok ({ store := { gs.store with
                   streams := tset gs.store.streams stream_id
                     { stream with status := STATUS_CANCELLED }
                   escrow := gs.store.escrow - claimable - remaining }
               mapping := gs.mapping
               indexes := gs.indexes },
             (if 0 < claimable then [(stream.recipient, claimable)] else [])
             ++ (if 0 < remaining then [(sender_address, remaining)] else []))

/-- The entry point `withdraw_fees` (src/contracts/sources/stream.move:231-246). -/
def withdraw_fees (admin_addr amount : Nat) (gs : GState) :
    MR (GState × Transfers) :=
  if gs.store.admin ≠ admin_addr then .error (.code E_NOT_ADMIN)
  else if gs.store.fee_collected < amount then
    .error (.code E_INSUFFICIENT_BALANCE)
  else if gs.store.escrow < amount then .error .coinErr
  else
    .ok ({ store := { gs.store with
               fee_collected := gs.store.fee_collected - amount
               escrow := gs.store.escrow - amount }
           mapping := gs.mapping
           indexes := gs.indexes },
         [(admin_addr, amount)])

/-- The entry point `update_stream_recipient`
(src/contracts/sources/stream.move:177-228): the recipient rebinding
operation.  The conditional remove-if-contains of the source is `tremove`,
which is the identity when the key is absent. -/
def update_stream_recipient (admin_addr : Nat) (stream_id new_recipient : Nat)
    (social_hash : List Nat) (gs : GState) : MR (GState × Transfers) :=
  if gs.store.admin ≠ admin_addr then .error (.code E_NOT_ADMIN)
  else
    getOr (tget gs.store.streams stream_id) (.code E_STREAM_NOT_FOUND) fun stream =>
    if stream.recipient_social_hash ≠ social_hash then
      .error (.code E_SOCIAL_HASH_MISMATCH)
    else
      mbind (tadd (tremove gs.mapping.social_to_address social_hash)
          social_hash new_recipient) fun s2a2 =>
      mbind (tadd (tremove gs.mapping.address_to_social stream.recipient)
          new_recipient social_hash) fun a2s2 =>
      .ok ({ store := { gs.store with
                 streams := tset gs.store.streams stream_id
                   { stream with recipient := new_recipient } }
             mapping := { social_to_address := s2a2
                          address_to_social := a2s2 }
             indexes := gs.indexes }, [])

/-- The entry point `register_recipient`
(src/contracts/sources/stream.move:154-172). -/
def register_recipient (admin_addr : Nat) (social_hash : List Nat)
    (recipient_address : Nat) (gs : GState) : MR (GState × Transfers) :=
  if gs.store.admin ≠ admin_addr then .error (.code E_NOT_ADMIN)
  else if tcontains gs.mapping.social_to_address social_hash then .ok (gs, [])
  else
    mbind (tadd gs.mapping.social_to_address social_hash recipient_address)
        fun s2a2 =>
    mbind (tadd gs.mapping.address_to_social recipient_address social_hash)
        fun a2s2 =>
    .ok ({ gs with mapping := { social_to_address := s2a2
                                address_to_social := a2s2 } }, [])

/-- One engine transaction, with its ambient timestamp where relevant. -/
inductive Op where
  | create (sender recipient : Nat) (hash : List Nat)
      (amount duration start_time : Nat) (message : String) (now : Nat)
  | adminCreate (admin sender recipient : Nat) (hash : List Nat)
      (amount duration start_time : Nat) (message : String) (now : Nat)
  | claim (caller stream_id amount now : Nat)
  | adminClaim (admin stream_id recipient amount now : Nat)
  | cancel (caller stream_id now : Nat)
  | adminCancel (admin stream_id sender now : Nat)
  | withdrawFees (admin amount : Nat)
  | updateRecipient (admin stream_id new_recipient : Nat) (hash : List Nat)
  | register (admin : Nat) (hash : List Nat) (recipient : Nat)

/-- Dispatch one transaction to its entry point. -/
def execOp (op : Op) (gs : GState) : MR (GState × Transfers) :=
  match op with
  | .create s r h a d st m now => create_stream s r h a d st m now gs
  | .adminCreate ad s r h a d st m now =>
      admin_create_stream ad s r h a d st m now gs
  | .claim c id a now => claim_stream c id a now gs
  | .adminClaim ad id r a now => admin_claim_for_recipient ad id r a now gs
  | .cancel c id now => cancel_stream c id now gs
  | .adminCancel ad id s now => admin_cancel_stream ad id s now gs
  | .withdrawFees ad a => withdraw_fees ad a gs
  | .updateRecipient ad id nr h => update_stream_recipient ad id nr h gs
  | .register ad h r => register_recipient ad h r gs

/-- Chain-level semantics of one submitted transaction: an aborting
transaction leaves the state unchanged (Move transactions are atomic). -/
def step (gs : GState) (op : Op) : GState :=
  match execOp op gs with
  | .ok (gs2, _) => gs2
  | .error _ => gs

/-- Execute a sequence of submitted transactions. -/
def execList (ops : List Op) (gs : GState) : GState := ops.foldl step gs

-- ==========================================================================
-- Basic lemmas about the table model
-- ==========================================================================

lemma tget_cons {K V : Type} [DecidableEq K] (p : K × V) (a : K)
    (t : List (K × V)) :
    tget (p :: t) a = if p.1 = a then some p.2 else tget t a := by
  by_cases h : p.1 = a <;> simp [tget, List.find?_cons, h]

lemma tget_nil {K V : Type} [DecidableEq K] (a : K) :
    tget ([] : List (K × V)) a = none := rfl

lemma tcontains_false_not_mem {K V : Type} [DecidableEq K] {t : List (K × V)}
    {k : K} (h : tcontains t k = false) : k ∉ t.map Prod.fst := by
  intro hk
  obtain ⟨p, hp, hfst⟩ := List.mem_map.mp hk
  have : tcontains t k = true := by
    simp only [tcontains, List.any_eq_true]
    exact ⟨p, hp, by simp [hfst]⟩
  simp [this] at h

lemma tget_none_of_tcontains_false {K V : Type} [DecidableEq K]
    {t : List (K × V)} {k : K} (h : tcontains t k = false) : tget t k = none := by
  have hfind : t.find? (fun p => p.1 = k) = none := by
    rw [List.find?_eq_none]
    intro p hp
    simp only [decide_eq_true_eq]
    intro hfst
    exact tcontains_false_not_mem h (List.mem_map.mpr ⟨p, hp, hfst⟩)
  simp [tget, hfind]

lemma tset_map_fst {K V : Type} [DecidableEq K] (t : List (K × V)) (k : K)
    (v : V) : (tset t k v).map Prod.fst = t.map Prod.fst := by
  induction t with
  | nil => rfl
  | cons p rest ih =>
    show ((if p.1 = k then (k, v) else p) :: tset rest k v).map Prod.fst
        = p.1 :: rest.map Prod.fst
    by_cases hp : p.1 = k
    · rw [if_pos hp, List.map_cons]
      rw [ih, hp]
    · rw [if_neg hp, List.map_cons]
      rw [ih]

lemma tset_of_not_mem {K V : Type} [DecidableEq K] {t : List (K × V)} {k : K}
    (h : k ∉ t.map Prod.fst) (v : V) : tset t k v = t := by
  induction t with
  | nil => rfl
  | cons p rest ih =>
    simp only [List.map_cons, List.mem_cons] at h
    push_neg at h
    show (if p.1 = k then (k, v) else p) :: tset rest k v = p :: rest
    rw [if_neg (fun hp => h.1 hp.symm), ih h.2]

lemma tget_tset_self {K V : Type} [DecidableEq K] {t : List (K × V)} {k : K}
    {s : V} (h : tget t k = some s) (v : V) : tget (tset t k v) k = some v := by
  induction t with
  | nil => simp [tget] at h
  | cons p rest ih =>
    rw [tget_cons] at h
    show tget ((if p.1 = k then (k, v) else p) :: tset rest k v) k = some v
    by_cases hp : p.1 = k
    · rw [if_pos hp, tget_cons, if_pos rfl]
    · rw [if_neg hp] at h
      rw [if_neg hp, tget_cons, if_neg hp]
      exact ih h

lemma tget_tset_ne {K V : Type} [DecidableEq K] (t : List (K × V)) (k a : K)
    (v : V) (h : a ≠ k) : tget (tset t k v) a = tget t a := by
  induction t with
  | nil => rfl
  | cons p rest ih =>
    show tget ((if p.1 = k then (k, v) else p) :: tset rest k v) a
        = tget (p :: rest) a
    rw [tget_cons (p := p)]
    by_cases hp : p.1 = k
    · rw [if_pos hp, tget_cons, if_neg (fun hk => h hk.symm)]
      rw [if_neg (by rw [hp]; exact fun hk => h hk.symm), ih]
    · rw [if_neg hp, tget_cons]
      by_cases hpa : p.1 = a
      · rw [if_pos hpa, if_pos hpa]
      · rw [if_neg hpa, if_neg hpa, ih]

-- ==========================================================================
-- Basic lemmas about checked u64 arithmetic
-- ==========================================================================

lemma u64add_ok {a b x : Nat} (h : u64add a b = .ok x) :
    x = a + b ∧ a + b ≤ U64_MAX := by
  unfold u64add u64chk at h
  split at h
  · exact ⟨(Except.ok.inj h).symm, by assumption⟩
  · exact absurd h (by simp)

lemma u64mul_ok {a b x : Nat} (h : u64mul a b = .ok x) :
    x = a * b ∧ a * b ≤ U64_MAX := by
  unfold u64mul u64chk at h
  split at h
  · exact ⟨(Except.ok.inj h).symm, by assumption⟩
  · exact absurd h (by simp)

lemma u64sub_ok {a b x : Nat} (h : u64sub a b = .ok x) : b ≤ a ∧ x = a - b := by
  unfold u64sub at h
  split at h
  · exact ⟨by assumption, (Except.ok.inj h).symm⟩
  · exact absurd h (by simp)

lemma u64add_eq_ok {a b : Nat} (h : a + b ≤ U64_MAX) :
    u64add a b = .ok (a + b) := by
  simp [u64add, u64chk, h]

lemma u64mul_eq_ok {a b : Nat} (h : a * b ≤ U64_MAX) :
    u64mul a b = .ok (a * b) := by
  simp [u64mul, u64chk, h]

lemma u64sub_eq_ok {a b : Nat} (h : b ≤ a) : u64sub a b = .ok (a - b) := by
  simp [u64sub, h]

-- ==========================================================================
-- Bounds satisfied by the accrual calculator whenever it returns a value
-- ==========================================================================

/-- Whatever `calculate_claimable_internal` returns is at most the remaining
undisbursed amount `total_amount - claimed_amount`. -/
lemma calc_claimable_le {s : Stream} {now c : Nat}
    (h : calculate_claimable_internal s now = .ok c) :
    c ≤ s.total_amount - s.claimed_amount := by
  unfold calculate_claimable_internal at h
  split at h
  · cases h; exact Nat.zero_le _
  split at h
  · cases h; exact Nat.zero_le _
  obtain ⟨elapsed, hs1, h⟩ := mbind_eq_ok h
  obtain ⟨accrued, hs2, h⟩ := mbind_eq_ok h
  obtain ⟨remaining, hs3, h⟩ := mbind_eq_ok h
  obtain ⟨hle, hrem⟩ := u64sub_ok hs3
  have hc : (if remaining < accrued then remaining else accrued) = c :=
    Except.ok.inj h
  subst hrem
  rw [← hc]
  split
  · exact le_refl _
  · exact Nat.le_of_not_lt (by assumption)

/-- A positive claimable value forces `claimed_amount ≤ total_amount` (the
internal u64 subtraction would otherwise have aborted). -/
lemma calc_claimable_pos_claimed_le {s : Stream} {now c : Nat}
    (h : calculate_claimable_internal s now = .ok c) (hpos : 0 < c) :
    s.claimed_amount ≤ s.total_amount := by
  unfold calculate_claimable_internal at h
  split at h
  · cases h; omega
  split at h
  · cases h; omega
  obtain ⟨elapsed, hs1, h⟩ := mbind_eq_ok h
  obtain ⟨accrued, hs2, h⟩ := mbind_eq_ok h
  obtain ⟨remaining, hs3, h⟩ := mbind_eq_ok h
  exact (u64sub_ok hs3).1

-- ==========================================================================
-- Inversion lemmas: what a successful run of each entry point implies
-- ==========================================================================

/-- The stream record built by a successful `create_stream` /
`admin_create_stream` call. -/
def createdStream (sa ra : Nat) (hash : List Nat) (amount dur st0 : Nat)
    (msg : String) (now sid : Nat) : Stream :=
  { id := sid
    sender := sa
    recipient := ra
    recipient_social_hash := hash
    total_amount := amount - amount * PROTOCOL_FEE_BPS / BPS_DENOMINATOR
    claimed_amount := 0
    rate_per_second :=
      (amount - amount * PROTOCOL_FEE_BPS / BPS_DENOMINATOR) / dur
    start_time := if st0 = 0 then now else st0
    end_time := (if st0 = 0 then now else st0) + dur
    last_claim_time := if st0 = 0 then now else st0
    message := msg
    status := STATUS_ACTIVE
    created_at := now }

lemma create_stream_ok {sa ra : Nat} {hash : List Nat} {amount dur st0 : Nat}
    {msg : String} {now : Nat} {gs gs2 : GState} {outs : Transfers}
    (hE : create_stream sa ra hash amount dur st0 msg now gs = .ok (gs2, outs)) :
    amount ≠ 0 ∧ dur ≠ 0 ∧
    amount * PROTOCOL_FEE_BPS ≤ U64_MAX ∧
    amount * PROTOCOL_FEE_BPS / BPS_DENOMINATOR ≤ amount ∧
    tcontains gs.store.streams gs.store.next_stream_id = false ∧
    gs2.store.streams = (gs.store.next_stream_id,
      createdStream sa ra hash amount dur st0 msg now gs.store.next_stream_id)
      :: gs.store.streams ∧
    gs2.store.escrow = gs.store.escrow + amount ∧
    gs2.store.fee_collected = gs.store.fee_collected
      + amount * PROTOCOL_FEE_BPS / BPS_DENOMINATOR ∧
    gs2.store.next_stream_id = gs.store.next_stream_id + 1 ∧
    gs2.store.admin = gs.store.admin ∧
    gs2.mapping = gs.mapping ∧
    outs = [] := by
  unfold create_stream at hE
  split at hE
  · exact absurd hE (by simp)
  rename_i hAmt
  split at hE
  · exact absurd hE (by simp)
  rename_i hDur
  obtain ⟨feeNum, hmul, hE⟩ := mbind_eq_ok hE
  obtain ⟨hfeeNum, hmulle⟩ := u64mul_ok hmul
  subst hfeeNum
  obtain ⟨stream_amount, hsub, hE⟩ := mbind_eq_ok hE
  obtain ⟨hfee_le, hsa⟩ := u64sub_ok hsub
  subst hsa
  obtain ⟨end_time, hadd1, hE⟩ := mbind_eq_ok hE
  obtain ⟨hend, hend_le⟩ := u64add_ok hadd1
  subst hend
  obtain ⟨escrow2, hadd2, hE⟩ := mbind_eq_ok hE
  obtain ⟨hesc, hesc_le⟩ := u64add_ok hadd2
  subst hesc
  obtain ⟨fee2, hadd3, hE⟩ := mbind_eq_ok hE
  obtain ⟨hfee2, hfee2_le⟩ := u64add_ok hadd3
  subst hfee2
  obtain ⟨next2, hadd4, hE⟩ := mbind_eq_ok hE
  obtain ⟨hnext, hnext_le⟩ := u64add_ok hadd4
  subst hnext
  obtain ⟨streams2, haddT, hE⟩ := mbind_eq_ok hE
  unfold tadd at haddT
  split at haddT
  · exact absurd haddT (by simp)
  rename_i hcont
  have hstreams2 := Except.ok.inj haddT
  subst hstreams2
  injection hE with hpair
  injection hpair with hgs houts
  subst hgs
  subst houts
  exact ⟨hAmt, hDur, hmulle, hfee_le, by simpa using hcont,
    rfl, rfl, rfl, rfl, rfl, rfl, rfl⟩

lemma admin_create_stream_ok {ad sa ra : Nat} {hash : List Nat}
    {amount dur st0 : Nat} {msg : String} {now : Nat} {gs gs2 : GState}
    {outs : Transfers}
    (hE : admin_create_stream ad sa ra hash amount dur st0 msg now gs
      = .ok (gs2, outs)) :
    amount ≠ 0 ∧ dur ≠ 0 ∧
    amount * PROTOCOL_FEE_BPS ≤ U64_MAX ∧
    amount * PROTOCOL_FEE_BPS / BPS_DENOMINATOR ≤ amount ∧
    tcontains gs.store.streams gs.store.next_stream_id = false ∧
    gs2.store.streams = (gs.store.next_stream_id,
      createdStream sa ra hash amount dur st0 msg now gs.store.next_stream_id)
      :: gs.store.streams ∧
    gs2.store.escrow = gs.store.escrow + amount ∧
    gs2.store.fee_collected = gs.store.fee_collected
      + amount * PROTOCOL_FEE_BPS / BPS_DENOMINATOR ∧
    gs2.store.next_stream_id = gs.store.next_stream_id + 1 ∧
    gs2.store.admin = gs.store.admin ∧
    gs2.mapping = gs.mapping ∧
    outs = [] := by
  unfold admin_create_stream at hE
  split at hE
  · exact absurd hE (by simp)
  rename_i hAmt
  split at hE
  · exact absurd hE (by simp)
  rename_i hDur
  split at hE
  · exact absurd hE (by simp)
  rename_i hAdm
  obtain ⟨feeNum, hmul, hE⟩ := mbind_eq_ok hE
  obtain ⟨hfeeNum, hmulle⟩ := u64mul_ok hmul
  subst hfeeNum
  obtain ⟨stream_amount, hsub, hE⟩ := mbind_eq_ok hE
  obtain ⟨hfee_le, hsa⟩ := u64sub_ok hsub
  subst hsa
  obtain ⟨end_time, hadd1, hE⟩ := mbind_eq_ok hE
  obtain ⟨hend, hend_le⟩ := u64add_ok hadd1
  subst hend
  obtain ⟨escrow2, hadd2, hE⟩ := mbind_eq_ok hE
  obtain ⟨hesc, hesc_le⟩ := u64add_ok hadd2
  subst hesc
  obtain ⟨fee2, hadd3, hE⟩ := mbind_eq_ok hE
  obtain ⟨hfee2, hfee2_le⟩ := u64add_ok hadd3
  subst hfee2
  obtain ⟨next2, hadd4, hE⟩ := mbind_eq_ok hE
  obtain ⟨hnext, hnext_le⟩ := u64add_ok hadd4
  subst hnext
  obtain ⟨streams2, haddT, hE⟩ := mbind_eq_ok hE
  unfold tadd at haddT
  split at haddT
  · exact absurd haddT (by simp)
  rename_i hcont
  have hstreams2 := Except.ok.inj haddT
  subst hstreams2
  injection hE with hpair
  injection hpair with hgs houts
  subst hgs
  subst houts
  exact ⟨hAmt, hDur, hmulle, hfee_le, by simpa using hcont,
    rfl, rfl, rfl, rfl, rfl, rfl, rfl⟩

lemma claim_stream_ok {caller sid amt now : Nat} {gs gs2 : GState}
    {outs : Transfers}
    (hE : claim_stream caller sid amt now gs = .ok (gs2, outs)) :
    ∃ stream claimable ca,
      tget gs.store.streams sid = some stream ∧
      stream.recipient = caller ∧
      stream.status = STATUS_ACTIVE ∧
      calculate_claimable_internal stream now = .ok claimable ∧
      claimable ≠ 0 ∧
      ca = claimAmountOf amt claimable ∧
      ca ≤ gs.store.escrow ∧
      stream.claimed_amount + ca ≤ U64_MAX ∧
      gs2.store.streams = tset gs.store.streams sid
        { stream with
          claimed_amount := stream.claimed_amount + ca
          last_claim_time := now
          status := if stream.total_amount ≤ stream.claimed_amount + ca
                    then STATUS_COMPLETED else stream.status } ∧
      gs2.store.escrow = gs.store.escrow - ca ∧
      gs2.store.fee_collected = gs.store.fee_collected ∧
      gs2.store.next_stream_id = gs.store.next_stream_id ∧
      gs2.store.admin = gs.store.admin ∧
      gs2.mapping = gs.mapping ∧
      outs = [(caller, ca)] := by
  unfold claim_stream at hE
  obtain ⟨stream, hget, hE⟩ := getOr_eq_ok hE
  split at hE
  · exact absurd hE (by simp)
  rename_i hrec
  split at hE
  · exact absurd hE (by simp)
  rename_i hstat
  obtain ⟨claimable, hcalc, hE⟩ := mbind_eq_ok hE
  split at hE
  · exact absurd hE (by simp)
  rename_i hc0
  obtain ⟨claimed2, haddc, hE⟩ := mbind_eq_ok hE
  obtain ⟨hcl2, hcl2le⟩ := u64add_ok haddc
  subst hcl2
  split at hE
  · exact absurd hE (by simp)
  rename_i hescok
  injection hE with hpair
  injection hpair with hgs houts
  subst hgs
  subst houts
  exact ⟨stream, claimable, _, hget, not_ne_iff.mp hrec, not_ne_iff.mp hstat,
    hcalc, hc0, rfl, Nat.le_of_not_lt hescok, hcl2le,
    rfl, rfl, rfl, rfl, rfl, rfl, rfl⟩

lemma admin_claim_ok {ad sid ra amt now : Nat} {gs gs2 : GState}
    {outs : Transfers}
    (hE : admin_claim_for_recipient ad sid ra amt now gs = .ok (gs2, outs)) :
    ∃ stream claimable ca,
      gs.store.admin = ad ∧
      tget gs.store.streams sid = some stream ∧
      stream.recipient = ra ∧
      stream.status = STATUS_ACTIVE ∧
      calculate_claimable_internal stream now = .ok claimable ∧
      claimable ≠ 0 ∧
      ca = claimAmountOf amt claimable ∧
      ca ≤ gs.store.escrow ∧
      stream.claimed_amount + ca ≤ U64_MAX ∧
      gs2.store.streams = tset gs.store.streams sid
        { stream with
          claimed_amount := stream.claimed_amount + ca
          last_claim_time := now
          status := if stream.total_amount ≤ stream.claimed_amount + ca
                    then STATUS_COMPLETED else stream.status } ∧
      gs2.store.escrow = gs.store.escrow - ca ∧
      gs2.store.fee_collected = gs.store.fee_collected ∧
      gs2.store.next_stream_id = gs.store.next_stream_id ∧
      gs2.store.admin = gs.store.admin ∧
      gs2.mapping = gs.mapping ∧
      outs = [(ra, ca)] := by
  unfold admin_claim_for_recipient at hE
  split at hE
  · exact absurd hE (by simp)
  rename_i hAdm
  obtain ⟨stream, hget, hE⟩ := getOr_eq_ok hE
  split at hE
  · exact absurd hE (by simp)
  rename_i hrec
  split at hE
  · exact absurd hE (by simp)
  rename_i hstat
  obtain ⟨claimable, hcalc, hE⟩ := mbind_eq_ok hE
  split at hE
  · exact absurd hE (by simp)
  rename_i hc0
  obtain ⟨claimed2, haddc, hE⟩ := mbind_eq_ok hE
  obtain ⟨hcl2, hcl2le⟩ := u64add_ok haddc
  subst hcl2
  split at hE
  · exact absurd hE (by simp)
  rename_i hescok
  injection hE with hpair
  injection hpair with hgs houts
  subst hgs
  subst houts
  exact ⟨stream, claimable, _, not_ne_iff.mp hAdm, hget,
    not_ne_iff.mp hrec, not_ne_iff.mp hstat,
    hcalc, hc0, rfl, Nat.le_of_not_lt hescok, hcl2le,
    rfl, rfl, rfl, rfl, rfl, rfl, rfl⟩

lemma cancel_stream_ok {caller sid now : Nat} {gs gs2 : GState}
    {outs : Transfers}
    (hE : cancel_stream caller sid now gs = .ok (gs2, outs)) :
    ∃ stream claimable,
      tget gs.store.streams sid = some stream ∧
      stream.sender = caller ∧
      stream.status = STATUS_ACTIVE ∧
      calculate_claimable_internal stream now = .ok claimable ∧
      stream.claimed_amount ≤ stream.total_amount ∧
      claimable ≤ stream.total_amount - stream.claimed_amount ∧
      claimable ≤ gs.store.escrow ∧
      stream.total_amount - stream.claimed_amount - claimable
        ≤ gs.store.escrow - claimable ∧
      gs2.store.streams = tset gs.store.streams sid
        { stream with status := STATUS_CANCELLED } ∧
      gs2.store.escrow = gs.store.escrow - claimable
        - (stream.total_amount - stream.claimed_amount - claimable) ∧
      gs2.store.fee_collected = gs.store.fee_collected ∧
      gs2.store.next_stream_id = gs.store.next_stream_id ∧
      gs2.store.admin = gs.store.admin ∧
      gs2.mapping = gs.mapping ∧
      gs2.indexes = gs.indexes ∧
      outs = (if 0 < claimable then [(stream.recipient, claimable)] else [])
        ++ (if 0 < stream.total_amount - stream.claimed_amount - claimable
            then [(caller, stream.total_amount - stream.claimed_amount
              - claimable)] else []) := by
  unfold cancel_stream at hE
  obtain ⟨stream, hget, hE⟩ := getOr_eq_ok hE
  split at hE
  · exact absurd hE (by simp)
  rename_i hsend
  split at hE
  · exact absurd hE (by simp)
  rename_i hstat
  obtain ⟨claimable, hcalc, hE⟩ := mbind_eq_ok hE
  obtain ⟨rem1, hsub1, hE⟩ := mbind_eq_ok hE
  obtain ⟨hle1, hrem1⟩ := u64sub_ok hsub1
  subst hrem1
  obtain ⟨remaining, hsub2, hE⟩ := mbind_eq_ok hE
  obtain ⟨hle2, hrem2⟩ := u64sub_ok hsub2
  subst hrem2
  split at hE
  · exact absurd hE (by simp)
  rename_i hesc1
  split at hE
  · exact absurd hE (by simp)
  rename_i hesc2
  injection hE with hpair
  injection hpair with hgs houts
  subst hgs
  subst houts
  exact ⟨stream, claimable, hget, not_ne_iff.mp hsend, not_ne_iff.mp hstat,
    hcalc, hle1, hle2, Nat.le_of_not_lt hesc1, Nat.le_of_not_lt hesc2,
    rfl, rfl, rfl, rfl, rfl, rfl, rfl, rfl⟩

lemma admin_cancel_ok {ad sid sa now : Nat} {gs gs2 : GState}
    {outs : Transfers}
    (hE : admin_cancel_stream ad sid sa now gs = .ok (gs2, outs)) :
    ∃ stream claimable,
      gs.store.admin = ad ∧
      tget gs.store.streams sid = some stream ∧
      stream.sender = sa ∧
      stream.status = STATUS_ACTIVE ∧
      calculate_claimable_internal stream now = .ok claimable ∧
      stream.claimed_amount ≤ stream.total_amount ∧
      claimable ≤ stream.total_amount - stream.claimed_amount ∧
      claimable ≤ gs.store.escrow ∧
      stream.total_amount - stream.claimed_amount - claimable
        ≤ gs.store.escrow - claimable ∧
      gs2.store.streams = tset gs.store.streams sid
        { stream with status := STATUS_CANCELLED } ∧
      gs2.store.escrow = gs.store.escrow - claimable
        - (stream.total_amount - stream.claimed_amount - claimable) ∧
      gs2.store.fee_collected = gs.store.fee_collected ∧
      gs2.store.next_stream_id = gs.store.next_stream_id ∧
      gs2.store.admin = gs.store.admin ∧
      gs2.mapping = gs.mapping ∧
      gs2.indexes = gs.indexes ∧
      outs = (if 0 < claimable then [(stream.recipient, claimable)] else [])
        ++ (if 0 < stream.total_amount - stream.claimed_amount - claimable
            then [(sa, stream.total_amount - stream.claimed_amount
              - claimable)] else []) := by
  unfold admin_cancel_stream at hE
  split at hE
  · exact absurd hE (by simp)
  rename_i hAdm
  obtain ⟨stream, hget, hE⟩ := getOr_eq_ok hE
  split at hE
  · exact absurd hE (by simp)
  rename_i hsend
  split at hE
  · exact absurd hE (by simp)
  rename_i hstat
  obtain ⟨claimable, hcalc, hE⟩ := mbind_eq_ok hE
  obtain ⟨rem1, hsub1, hE⟩ := mbind_eq_ok hE
  obtain ⟨hle1, hrem1⟩ := u64sub_ok hsub1
  subst hrem1
  obtain ⟨remaining, hsub2, hE⟩ := mbind_eq_ok hE
  obtain ⟨hle2, hrem2⟩ := u64sub_ok hsub2
  subst hrem2
  split at hE
  · exact absurd hE (by simp)
  rename_i hesc1
  split at hE
  · exact absurd hE (by simp)
  rename_i hesc2
  injection hE with hpair
  injection hpair with hgs houts
  subst hgs
  subst houts
  exact ⟨stream, claimable, not_ne_iff.mp hAdm, hget, not_ne_iff.mp hsend,
    not_ne_iff.mp hstat, hcalc, hle1, hle2,
    Nat.le_of_not_lt hesc1, Nat.le_of_not_lt hesc2,
    rfl, rfl, rfl, rfl, rfl, rfl, rfl, rfl⟩

lemma withdraw_fees_ok {ad amount : Nat} {gs gs2 : GState} {outs : Transfers}
    (hE : withdraw_fees ad amount gs = .ok (gs2, outs)) :
    gs.store.admin = ad ∧
    amount ≤ gs.store.fee_collected ∧
    amount ≤ gs.store.escrow ∧
    gs2.store.streams = gs.store.streams ∧
    gs2.store.escrow = gs.store.escrow - amount ∧
    gs2.store.fee_collected = gs.store.fee_collected - amount ∧
    gs2.store.next_stream_id = gs.store.next_stream_id ∧
    gs2.store.admin = gs.store.admin ∧
    gs2.mapping = gs.mapping ∧
    gs2.indexes = gs.indexes ∧
    outs = [(ad, amount)] := by
  unfold withdraw_fees at hE
  split at hE
  · exact absurd hE (by simp)
  rename_i hAdm
  split at hE
  · exact absurd hE (by simp)
  rename_i hfee
  split at hE
  · exact absurd hE (by simp)
  rename_i hesc
  injection hE with hpair
  injection hpair with hgs houts
  subst hgs
  subst houts
  exact ⟨not_ne_iff.mp hAdm, Nat.le_of_not_lt hfee, Nat.le_of_not_lt hesc,
    rfl, rfl, rfl, rfl, rfl, rfl, rfl, rfl⟩

lemma update_recipient_ok {ad sid nr : Nat} {hash : List Nat}
    {gs gs2 : GState} {outs : Transfers}
    (hE : update_stream_recipient ad sid nr hash gs = .ok (gs2, outs)) :
    ∃ stream,
      gs.store.admin = ad ∧
      tget gs.store.streams sid = some stream ∧
      stream.recipient_social_hash = hash ∧
      gs2.store.streams = tset gs.store.streams sid
        { stream with recipient := nr } ∧
      gs2.store.escrow = gs.store.escrow ∧
      gs2.store.fee_collected = gs.store.fee_collected ∧
      gs2.store.next_stream_id = gs.store.next_stream_id ∧
      gs2.store.admin = gs.store.admin ∧
      gs2.mapping.social_to_address
        = (hash, nr) :: tremove gs.mapping.social_to_address hash ∧
      gs2.mapping.address_to_social
        = (nr, hash) :: tremove gs.mapping.address_to_social stream.recipient ∧
      gs2.indexes = gs.indexes ∧
      outs = [] := by
  unfold update_stream_recipient at hE
  split at hE
  · exact absurd hE (by simp)
  rename_i hAdm
  obtain ⟨stream, hget, hE⟩ := getOr_eq_ok hE
  split at hE
  · exact absurd hE (by simp)
  rename_i hhash
  obtain ⟨s2a2, haddA, hE⟩ := mbind_eq_ok hE
  unfold tadd at haddA
  split at haddA
  · exact absurd haddA (by simp)
  rename_i hcontA
  have hs2a2 := Except.ok.inj haddA
  subst hs2a2
  obtain ⟨a2s2, haddB, hE⟩ := mbind_eq_ok hE
  unfold tadd at haddB
  split at haddB
  · exact absurd haddB (by simp)
  rename_i hcontB
  have ha2s2 := Except.ok.inj haddB
  subst ha2s2
  injection hE with hpair
  injection hpair with hgs houts
  subst hgs
  subst houts
  exact ⟨stream, not_ne_iff.mp hAdm, hget, not_ne_iff.mp hhash,
    rfl, rfl, rfl, rfl, rfl, rfl, rfl, rfl, rfl⟩

lemma register_ok {ad : Nat} {hash : List Nat} {ra : Nat} {gs gs2 : GState}
    {outs : Transfers}
    (hE : register_recipient ad hash ra gs = .ok (gs2, outs)) :
    gs2.store = gs.store ∧ gs2.indexes = gs.indexes := by
  unfold register_recipient at hE
  split at hE
  · exact absurd hE (by simp)
  rename_i hAdm
  split at hE
  · injection hE with hpair
    injection hpair with hgs houts
    subst hgs
    exact ⟨rfl, rfl⟩
  rename_i hcont
  obtain ⟨s2a2, haddA, hE⟩ := mbind_eq_ok hE
  obtain ⟨a2s2, haddB, hE⟩ := mbind_eq_ok hE
  injection hE with hpair
  injection hpair with hgs houts
  subst hgs
  exact ⟨rfl, rfl⟩

-- ==========================================================================
-- The conservation / bounds invariant and its preservation
-- ==========================================================================

/-- Escrow still owed to a stream: `total_amount - claimed_amount` while the
stream is ACTIVE, `0` once it is terminal (COMPLETED / CANCELLED). -/
def remainingOf (s : Stream) : Nat :=
  if s.status = STATUS_ACTIVE then s.total_amount - s.claimed_amount else 0

/-- Total escrow owed to the non-terminal streams of the table. -/
def sumActive (t : List (Nat × Stream)) : Nat :=
  (t.map (fun p => remainingOf p.2)).sum

lemma sumActive_cons (p : Nat × Stream) (t : List (Nat × Stream)) :
    sumActive (p :: t) = remainingOf p.2 + sumActive t := by
  simp [sumActive]

lemma remainingOf_le_sumActive {t : List (Nat × Stream)} {k : Nat} {s : Stream}
    (h : tget t k = some s) : remainingOf s ≤ sumActive t := by
  induction t with
  | nil => simp [tget] at h
  | cons p rest ih =>
    rw [tget_cons] at h
    rw [sumActive_cons]
    by_cases hp : p.1 = k
    · rw [if_pos hp] at h
      obtain rfl := Option.some.inj h
      exact Nat.le_add_right _ _
    · rw [if_neg hp] at h
      exact le_trans (ih h) (Nat.le_add_left _ _)

lemma sumActive_tset {t : List (Nat × Stream)} {k : Nat} {s : Stream}
    (hnd : (t.map Prod.fst).Nodup) (h : tget t k = some s) (v : Stream) :
    sumActive (tset t k v) + remainingOf s = sumActive t + remainingOf v := by
  induction t with
  | nil => simp [tget] at h
  | cons p rest ih =>
    rw [tget_cons] at h
    rw [List.map_cons, List.nodup_cons] at hnd
    by_cases hp : p.1 = k
    · rw [if_pos hp] at h
      obtain rfl := Option.some.inj h
      show sumActive ((if p.1 = k then (k, v) else p) :: tset rest k v)
          + remainingOf p.2 = _
      rw [if_pos hp, tset_of_not_mem (hp ▸ hnd.1) v]
      rw [sumActive_cons, sumActive_cons]
      show remainingOf v + sumActive rest + remainingOf p.2
          = remainingOf p.2 + sumActive rest + remainingOf v
      omega
    · rw [if_neg hp] at h
      show sumActive ((if p.1 = k then (k, v) else p) :: tset rest k v)
          + remainingOf s = _
      rw [if_neg hp, sumActive_cons, sumActive_cons]
      have := ih hnd.2 h
      omega

/-- Per-stream invariant: claims never exceed the total, and an ACTIVE stream
always has something left to claim. -/
def StreamOK (s : Stream) : Prop :=
  s.claimed_amount ≤ s.total_amount ∧
  (s.status = STATUS_ACTIVE → s.claimed_amount < s.total_amount)

/-- Global invariant: the pooled escrow is exactly what the non-terminal
streams are still owed plus the collected fees, stream ids are unique, and
every stream satisfies `StreamOK`. -/
def Inv (gs : GState) : Prop :=
  gs.store.escrow = sumActive gs.store.streams + gs.store.fee_collected ∧
  (gs.store.streams.map Prod.fst).Nodup ∧
  ∀ k s, tget gs.store.streams k = some s → StreamOK s

lemma claimAmountOf_le (amt c : Nat) : claimAmountOf amt c ≤ c := by
  unfold claimAmountOf
  split
  · exact le_refl _
  · rename_i h
    push_neg at h
    omega

lemma inv_init (admin : Nat) : Inv (initState admin) := by
  refine ⟨rfl, List.nodup_nil, ?_⟩
  intro k s hk
  simp [initState, tget] at hk

lemma inv_create_shape {gs gs2 : GState} {amount f sid : Nat} {st : Stream}
    (h : Inv gs)
    (hcont : tcontains gs.store.streams sid = false)
    (hstr : gs2.store.streams = (sid, st) :: gs.store.streams)
    (hesc : gs2.store.escrow = gs.store.escrow + amount)
    (hfeec : gs2.store.fee_collected = gs.store.fee_collected + f)
    (hrem : remainingOf st = amount - f)
    (hfle : f ≤ amount)
    (hok : StreamOK st) : Inv gs2 := by
  obtain ⟨h1, h2, h3⟩ := h
  refine ⟨?_, ?_, ?_⟩
  · rw [hesc, hfeec, hstr, sumActive_cons]
    rw [show remainingOf ((sid, st)).2 = amount - f from hrem, h1]
    omega
  · rw [hstr, List.map_cons]
    exact List.nodup_cons.mpr ⟨tcontains_false_not_mem hcont, h2⟩
  · intro k s hk
    rw [hstr, tget_cons] at hk
    by_cases hkk : sid = k
    · rw [show ((sid, st)).1 = sid from rfl, if_pos hkk] at hk
      obtain rfl := Option.some.inj hk
      exact hok
    · rw [show ((sid, st)).1 = sid from rfl, if_neg hkk] at hk
      exact h3 k s hk

lemma inv_claim_shape {gs gs2 : GState} {sid now ca claimable : Nat}
    {stream : Stream}
    (h : Inv gs)
    (hget : tget gs.store.streams sid = some stream)
    (hstat : stream.status = STATUS_ACTIVE)
    (hcalc : calculate_claimable_internal stream now = .ok claimable)
    (hca : ca ≤ claimable)
    (hstr : gs2.store.streams = tset gs.store.streams sid
      { stream with
        claimed_amount := stream.claimed_amount + ca
        last_claim_time := now
        status := if stream.total_amount ≤ stream.claimed_amount + ca
                  then STATUS_COMPLETED else stream.status })
    (hesc : gs2.store.escrow = gs.store.escrow - ca)
    (hfee : gs2.store.fee_collected = gs.store.fee_collected) : Inv gs2 := by
  obtain ⟨h1, h2, h3⟩ := h
  obtain ⟨hok1, hok2⟩ := h3 sid stream hget
  have hcl_le : claimable ≤ stream.total_amount - stream.claimed_amount :=
    calc_claimable_le hcalc
  have hrem_le : remainingOf stream ≤ sumActive gs.store.streams :=
    remainingOf_le_sumActive hget
  have hremval : remainingOf stream
      = stream.total_amount - stream.claimed_amount := if_pos hstat
  have hrem2 : remainingOf
      { stream with
        claimed_amount := stream.claimed_amount + ca
        last_claim_time := now
        status := if stream.total_amount ≤ stream.claimed_amount + ca
                  then STATUS_COMPLETED else stream.status }
      = stream.total_amount - (stream.claimed_amount + ca) := by
    show (if (if stream.total_amount ≤ stream.claimed_amount + ca
            then STATUS_COMPLETED else stream.status) = STATUS_ACTIVE
          then stream.total_amount - (stream.claimed_amount + ca) else 0)
        = stream.total_amount - (stream.claimed_amount + ca)
    by_cases hc : stream.total_amount ≤ stream.claimed_amount + ca
    · rw [if_pos hc, if_neg (by decide)]
      omega
    · rw [if_neg hc, if_pos hstat]
  have hsum : sumActive gs2.store.streams + remainingOf stream
      = sumActive gs.store.streams
        + (stream.total_amount - (stream.claimed_amount + ca)) := by
    rw [hstr, ← hrem2]
    exact sumActive_tset h2 hget _
  refine ⟨?_, ?_, ?_⟩
  · rw [hesc, hfee]
    omega
  · rw [hstr, tset_map_fst]
    exact h2
  · intro k s hk
    rw [hstr] at hk
    by_cases hkk : k = sid
    · subst hkk
      rw [tget_tset_self hget] at hk
      obtain rfl := Option.some.inj hk
      constructor
      · show stream.claimed_amount + ca ≤ stream.total_amount
        omega
      · show (if stream.total_amount ≤ stream.claimed_amount + ca
              then STATUS_COMPLETED else stream.status) = STATUS_ACTIVE →
          stream.claimed_amount + ca < stream.total_amount
        by_cases hc : stream.total_amount ≤ stream.claimed_amount + ca
        · rw [if_pos hc]
          intro habs
          exact absurd habs (by decide)
        · intro _
          omega
    · rw [tget_tset_ne _ _ _ _ hkk] at hk
      exact h3 k s hk

lemma inv_cancel_shape {gs gs2 : GState} {sid claimable : Nat} {stream : Stream}
    (h : Inv gs)
    (hget : tget gs.store.streams sid = some stream)
    (hstat : stream.status = STATUS_ACTIVE)
    (hcl_le : stream.claimed_amount ≤ stream.total_amount)
    (hclm_le : claimable ≤ stream.total_amount - stream.claimed_amount)
    (hstr : gs2.store.streams = tset gs.store.streams sid
      { stream with status := STATUS_CANCELLED })
    (hesc : gs2.store.escrow = gs.store.escrow - claimable
      - (stream.total_amount - stream.claimed_amount - claimable))
    (hfee : gs2.store.fee_collected = gs.store.fee_collected) : Inv gs2 := by
  obtain ⟨h1, h2, h3⟩ := h
  have hrem_le : remainingOf stream ≤ sumActive gs.store.streams :=
    remainingOf_le_sumActive hget
  have hremval : remainingOf stream
      = stream.total_amount - stream.claimed_amount := if_pos hstat
  have hrem2 : remainingOf { stream with status := STATUS_CANCELLED } = 0 := by
    show (if STATUS_CANCELLED = STATUS_ACTIVE
          then stream.total_amount - stream.claimed_amount else 0) = 0
    rw [if_neg (by decide)]
  have hsum : sumActive gs2.store.streams + remainingOf stream
      = sumActive gs.store.streams + 0 := by
    rw [hstr, ← hrem2]
    exact sumActive_tset h2 hget _
  refine ⟨?_, ?_, ?_⟩
  · rw [hesc, hfee]
    omega
  · rw [hstr, tset_map_fst]
    exact h2
  · intro k s hk
    rw [hstr] at hk
    by_cases hkk : k = sid
    · subst hkk
      rw [tget_tset_self hget] at hk
      obtain rfl := Option.some.inj hk
      constructor
      · exact hcl_le
      · intro habs
        exact absurd (show STATUS_CANCELLED = STATUS_ACTIVE from habs)
          (by decide)
    · rw [tget_tset_ne _ _ _ _ hkk] at hk
      exact h3 k s hk

lemma tget_cons_pair {K V : Type} [DecidableEq K] (k2 : K) (v : V) (a : K)
    (t : List (K × V)) :
    tget ((k2, v) :: t) a = if k2 = a then some v else tget t a :=
  tget_cons (k2, v) a t

lemma inv_create {sa ra : Nat} {hash : List Nat} {amount dur st0 : Nat}
    {msg : String} {now : Nat} {gs gs2 : GState} {outs : Transfers}
    (h : Inv gs)
    (hE : create_stream sa ra hash amount dur st0 msg now gs = .ok (gs2, outs)) :
    Inv gs2 := by
  obtain ⟨hAmt, hDur, hmul, hfee, hcont, hstr, hesc, hfeec, hnext, hadm, hmap,
    houts⟩ := create_stream_ok hE
  have htot_pos : 0 < amount - amount * PROTOCOL_FEE_BPS / BPS_DENOMINATOR := by
    have h0 : 0 < amount := Nat.pos_of_ne_zero hAmt
    have hlt : amount * PROTOCOL_FEE_BPS / BPS_DENOMINATOR < amount := by
      rw [Nat.div_lt_iff_lt_mul (by decide : 0 < BPS_DENOMINATOR)]
      show amount * PROTOCOL_FEE_BPS < amount * BPS_DENOMINATOR
      unfold PROTOCOL_FEE_BPS BPS_DENOMINATOR
      omega
    omega
  refine inv_create_shape h hcont hstr hesc hfeec ?_ hfee
    ⟨Nat.zero_le _, fun _ => htot_pos⟩
  show (if STATUS_ACTIVE = STATUS_ACTIVE
        then (amount - amount * PROTOCOL_FEE_BPS / BPS_DENOMINATOR) - 0 else 0)
      = amount - amount * PROTOCOL_FEE_BPS / BPS_DENOMINATOR
  rw [if_pos rfl]
  omega

lemma inv_admin_create {ad sa ra : Nat} {hash : List Nat} {amount dur st0 : Nat}
    {msg : String} {now : Nat} {gs gs2 : GState} {outs : Transfers}
    (h : Inv gs)
    (hE : admin_create_stream ad sa ra hash amount dur st0 msg now gs
      = .ok (gs2, outs)) : Inv gs2 := by
  obtain ⟨hAmt, hDur, hmul, hfee, hcont, hstr, hesc, hfeec, hnext, hadm, hmap,
    houts⟩ := admin_create_stream_ok hE
  have htot_pos : 0 < amount - amount * PROTOCOL_FEE_BPS / BPS_DENOMINATOR := by
    have h0 : 0 < amount := Nat.pos_of_ne_zero hAmt
    have hlt : amount * PROTOCOL_FEE_BPS / BPS_DENOMINATOR < amount := by
      rw [Nat.div_lt_iff_lt_mul (by decide : 0 < BPS_DENOMINATOR)]
      show amount * PROTOCOL_FEE_BPS < amount * BPS_DENOMINATOR
      unfold PROTOCOL_FEE_BPS BPS_DENOMINATOR
      omega
    omega
  refine inv_create_shape h hcont hstr hesc hfeec ?_ hfee
    ⟨Nat.zero_le _, fun _ => htot_pos⟩
  show (if STATUS_ACTIVE = STATUS_ACTIVE
        then (amount - amount * PROTOCOL_FEE_BPS / BPS_DENOMINATOR) - 0 else 0)
      = amount - amount * PROTOCOL_FEE_BPS / BPS_DENOMINATOR
  rw [if_pos rfl]
  omega

lemma inv_claim {c sid amt now : Nat} {gs gs2 : GState} {outs : Transfers}
    (h : Inv gs) (hE : claim_stream c sid amt now gs = .ok (gs2, outs)) :
    Inv gs2 := by
  obtain ⟨stream, claimable, ca, hget, hrec, hstat, hcalc, hc0, hcaeq, hca_esc,
    hcl2le, hstr, hesc, hfee, hnext, hadm, hmap, houts⟩ := claim_stream_ok hE
  exact inv_claim_shape h hget hstat hcalc
    (by rw [hcaeq]; exact claimAmountOf_le amt claimable) hstr hesc hfee

lemma inv_admin_claim {ad sid ra amt now : Nat} {gs gs2 : GState}
    {outs : Transfers} (h : Inv gs)
    (hE : admin_claim_for_recipient ad sid ra amt now gs = .ok (gs2, outs)) :
    Inv gs2 := by
  obtain ⟨stream, claimable, ca, hAdm, hget, hrec, hstat, hcalc, hc0, hcaeq,
    hca_esc, hcl2le, hstr, hesc, hfee, hnext, hadm2, hmap, houts⟩ :=
    admin_claim_ok hE
  exact inv_claim_shape h hget hstat hcalc
    (by rw [hcaeq]; exact claimAmountOf_le amt claimable) hstr hesc hfee

lemma inv_cancel {c sid now : Nat} {gs gs2 : GState} {outs : Transfers}
    (h : Inv gs) (hE : cancel_stream c sid now gs = .ok (gs2, outs)) :
    Inv gs2 := by
  obtain ⟨stream, claimable, hget, hsend, hstat, hcalc, hcl_le, hclm_le, hesc1,
    hesc2, hstr, hesc, hfee, hnext, hadm, hmap, hidx, houts⟩ :=
    cancel_stream_ok hE
  exact inv_cancel_shape h hget hstat hcl_le hclm_le hstr hesc hfee

lemma inv_admin_cancel {ad sid sa now : Nat} {gs gs2 : GState}
    {outs : Transfers} (h : Inv gs)
    (hE : admin_cancel_stream ad sid sa now gs = .ok (gs2, outs)) : Inv gs2 := by
  obtain ⟨stream, claimable, hAdm, hget, hsend, hstat, hcalc, hcl_le, hclm_le,
    hesc1, hesc2, hstr, hesc, hfee, hnext, hadm2, hmap, hidx, houts⟩ :=
    admin_cancel_ok hE
  exact inv_cancel_shape h hget hstat hcl_le hclm_le hstr hesc hfee

lemma inv_withdraw {ad amount : Nat} {gs gs2 : GState} {outs : Transfers}
    (h : Inv gs) (hE : withdraw_fees ad amount gs = .ok (gs2, outs)) :
    Inv gs2 := by
  obtain ⟨hAdm, hfle, hescle, hstr, hesc, hfee, hnext, hadm2, hmap, hidx,
    houts⟩ := withdraw_fees_ok hE
  obtain ⟨h1, h2, h3⟩ := h
  refine ⟨?_, ?_, ?_⟩
  · rw [hesc, hfee, hstr]
    omega
  · rw [hstr]
    exact h2
  · intro k s hk
    rw [hstr] at hk
    exact h3 k s hk

lemma inv_update_recipient {ad sid nr : Nat} {hash : List Nat}
    {gs gs2 : GState} {outs : Transfers} (h : Inv gs)
    (hE : update_stream_recipient ad sid nr hash gs = .ok (gs2, outs)) :
    Inv gs2 := by
  obtain ⟨stream, hAdm, hget, hhash, hstr, hesc, hfee, hnext, hadm2, hs2a,
    ha2s, hidx, houts⟩ := update_recipient_ok hE
  obtain ⟨h1, h2, h3⟩ := h
  have hsum : sumActive gs2.store.streams + remainingOf stream
      = sumActive gs.store.streams
        + remainingOf { stream with recipient := nr } := by
    rw [hstr]
    exact sumActive_tset h2 hget _
  rw [show remainingOf { stream with recipient := nr } = remainingOf stream
    from rfl] at hsum
  refine ⟨?_, ?_, ?_⟩
  · rw [hesc, hfee]
    omega
  · rw [hstr, tset_map_fst]
    exact h2
  · intro k s hk
    rw [hstr] at hk
    by_cases hkk : k = sid
    · subst hkk
      rw [tget_tset_self hget] at hk
      obtain rfl := Option.some.inj hk
      exact h3 _ stream hget
    · rw [tget_tset_ne _ _ _ _ hkk] at hk
      exact h3 k s hk

lemma inv_register {ad : Nat} {hash : List Nat} {ra : Nat} {gs gs2 : GState}
    {outs : Transfers} (h : Inv gs)
    (hE : register_recipient ad hash ra gs = .ok (gs2, outs)) : Inv gs2 := by
  obtain ⟨hst, hidx⟩ := register_ok hE
  obtain ⟨h1, h2, h3⟩ := h
  refine ⟨?_, ?_, ?_⟩
  · rw [hst]
    exact h1
  · rw [hst]
    exact h2
  · rw [hst]
    exact h3

/-- The invariant is preserved by every submitted transaction, whether it
commits or aborts. -/
lemma inv_step {gs : GState} (h : Inv gs) (op : Op) : Inv (step gs op) := by
  unfold step
  cases hE : execOp op gs with
  | error e => exact h
  | ok p =>
    obtain ⟨gs2, outs⟩ := p
    cases op with
    | create sa ra hash a d st m now => exact inv_create h hE
    | adminCreate ad sa ra hash a d st m now => exact inv_admin_create h hE
    | claim c sid a now => exact inv_claim h hE
    | adminClaim ad sid r a now => exact inv_admin_claim h hE
    | cancel c sid now => exact inv_cancel h hE
    | adminCancel ad sid sa now => exact inv_admin_cancel h hE
    | withdrawFees ad a => exact inv_withdraw h hE
    | updateRecipient ad sid nr hash => exact inv_update_recipient h hE
    | register ad hash r => exact inv_register h hE

/-- The invariant holds after every sequence of submitted transactions. -/
lemma inv_execList (ops : List Op) (gs : GState) (h : Inv gs) :
    Inv (execList ops gs) := by
  induction ops generalizing gs with
  | nil => exact h
  | cons op rest ih => exact ih (step gs op) (inv_step h op)

/-- A stream is never deleted, and its `claimed_amount` never decreases,
across one submitted transaction. -/
lemma claimed_mono_step (gs : GState) (op : Op) {k : Nat} {s : Stream}
    (hk : tget gs.store.streams k = some s) :
    ∃ s2, tget (step gs op).store.streams k = some s2 ∧
      s.claimed_amount ≤ s2.claimed_amount := by
  unfold step
  cases hE : execOp op gs with
  | error e => exact ⟨s, hk, le_refl _⟩
  | ok p =>
    obtain ⟨gs2, outs⟩ := p
    cases op with
    | create sa ra hash a d st m now =>
      obtain ⟨_, _, _, _, hcont, hstr, _⟩ := create_stream_ok hE
      have hne : gs.store.next_stream_id ≠ k := by
        intro hkk
        have hnone : tget gs.store.streams k = none := by
          rw [← hkk]
          exact tget_none_of_tcontains_false hcont
        rw [hnone] at hk
        exact absurd hk (by simp)
      refine ⟨s, ?_, le_refl _⟩
      rw [hstr, tget_cons_pair, if_neg hne]
      exact hk
    | adminCreate ad sa ra hash a d st m now =>
      obtain ⟨_, _, _, _, hcont, hstr, _⟩ := admin_create_stream_ok hE
      have hne : gs.store.next_stream_id ≠ k := by
        intro hkk
        have hnone : tget gs.store.streams k = none := by
          rw [← hkk]
          exact tget_none_of_tcontains_false hcont
        rw [hnone] at hk
        exact absurd hk (by simp)
      refine ⟨s, ?_, le_refl _⟩
      rw [hstr, tget_cons_pair, if_neg hne]
      exact hk
    | claim c sid a now =>
      obtain ⟨stream, claimable, ca, hget, _, _, _, _, _, _, _, hstr, _⟩ :=
        claim_stream_ok hE
      by_cases hkk : k = sid
      · subst hkk
        rw [hget] at hk
        obtain rfl := Option.some.inj hk
        refine ⟨_, by rw [hstr]; exact tget_tset_self hget _, ?_⟩
        show stream.claimed_amount ≤ stream.claimed_amount + ca
        omega
      · refine ⟨s, ?_, le_refl _⟩
        rw [hstr, tget_tset_ne _ _ _ _ hkk]
        exact hk
    | adminClaim ad sid r a now =>
      obtain ⟨stream, claimable, ca, _, hget, _, _, _, _, _, _, _, hstr, _⟩ :=
        admin_claim_ok hE
      by_cases hkk : k = sid
      · subst hkk
        rw [hget] at hk
        obtain rfl := Option.some.inj hk
        refine ⟨_, by rw [hstr]; exact tget_tset_self hget _, ?_⟩
        show stream.claimed_amount ≤ stream.claimed_amount + ca
        omega
      · refine ⟨s, ?_, le_refl _⟩
        rw [hstr, tget_tset_ne _ _ _ _ hkk]
        exact hk
    | cancel c sid now =>
      obtain ⟨stream, claimable, hget, _, _, _, _, _, _, _, hstr, _⟩ :=
        cancel_stream_ok hE
      by_cases hkk : k = sid
      · subst hkk
        rw [hget] at hk
        obtain rfl := Option.some.inj hk
        refine ⟨_, by rw [hstr]; exact tget_tset_self hget _, ?_⟩
        exact le_refl _
      · refine ⟨s, ?_, le_refl _⟩
        rw [hstr, tget_tset_ne _ _ _ _ hkk]
        exact hk
    | adminCancel ad sid sa now =>
      obtain ⟨stream, claimable, _, hget, _, _, _, _, _, _, _, hstr, _⟩ :=
        admin_cancel_ok hE
      by_cases hkk : k = sid
      · subst hkk
        rw [hget] at hk
        obtain rfl := Option.some.inj hk
        refine ⟨_, by rw [hstr]; exact tget_tset_self hget _, ?_⟩
        exact le_refl _
      · refine ⟨s, ?_, le_refl _⟩
        rw [hstr, tget_tset_ne _ _ _ _ hkk]
        exact hk
    | withdrawFees ad a =>
      obtain ⟨_, _, _, hstr, _⟩ := withdraw_fees_ok hE
      refine ⟨s, ?_, le_refl _⟩
      rw [hstr]
      exact hk
    | updateRecipient ad sid nr hash =>
      obtain ⟨stream, _, hget, _, hstr, _⟩ := update_recipient_ok hE
      by_cases hkk : k = sid
      · subst hkk
        rw [hget] at hk
        obtain rfl := Option.some.inj hk
        refine ⟨_, by rw [hstr]; exact tget_tset_self hget _, ?_⟩
        exact le_refl _
      · refine ⟨s, ?_, le_refl _⟩
        rw [hstr, tget_tset_ne _ _ _ _ hkk]
        exact hk
    | register ad hash r =>
      obtain ⟨hst, _⟩ := register_ok hE
      refine ⟨s, ?_, le_refl _⟩
      rw [hst]
      exact hk

/-- A stream is never deleted, and its `claimed_amount` never decreases,
across any sequence of submitted transactions. -/
lemma claimed_mono_execList (ops : List Op) (gs : GState) {k : Nat}
    {s : Stream} (hk : tget gs.store.streams k = some s) :
    ∃ s2, tget (execList ops gs).store.streams k = some s2 ∧
      s.claimed_amount ≤ s2.claimed_amount := by
  induction ops generalizing gs s with
  | nil => exact ⟨s, hk, le_refl _⟩
  | cons op rest ih =>
    obtain ⟨s1, hk1, hle1⟩ := claimed_mono_step gs op hk
    obtain ⟨s2, hk2, hle2⟩ := ih (step gs op) hk1
    exact ⟨s2, hk2, le_trans hle1 hle2⟩

-- ==========================================================================
-- Helper characterizations of the error paths
-- ==========================================================================

lemma u64chk_err {n : Nat} {e : MoveErr} (h : u64chk n = .error e) :
    e = .arith := by
  unfold u64chk at h
  split at h
  · exact absurd h (by simp)
  · exact (Except.error.inj h).symm

lemma u64sub_err {a b : Nat} {e : MoveErr} (h : u64sub a b = .error e) :
    e = .arith := by
  unfold u64sub at h
  split at h
  · exact absurd h (by simp)
  · exact (Except.error.inj h).symm

/-- The accrual calculator can abort only with an arithmetic abort. -/
lemma calc_error_arith {s : Stream} {now : Nat} {e : MoveErr}
    (h : calculate_claimable_internal s now = .error e) : e = .arith := by
  unfold calculate_claimable_internal at h
  split at h
  · exact absurd h (by simp)
  split at h
  · exact absurd h (by simp)
  cases hs1 : u64sub (if s.end_time < now then s.end_time else now)
      s.last_claim_time with
  | error e1 =>
    rw [hs1, mbind_error_left] at h
    rw [← Except.error.inj h]
    exact u64sub_err hs1
  | ok elapsed =>
    rw [hs1, mbind_ok_left] at h
    cases hs2 : u64mul elapsed s.rate_per_second with
    | error e2 =>
      rw [hs2, mbind_error_left] at h
      rw [← Except.error.inj h]
      exact u64chk_err hs2
    | ok accrued =>
      rw [hs2, mbind_ok_left] at h
      cases hs3 : u64sub s.total_amount s.claimed_amount with
      | error e3 =>
        rw [hs3, mbind_error_left] at h
        rw [← Except.error.inj h]
        exact u64sub_err hs3
      | ok remaining =>
        rw [hs3, mbind_ok_left] at h
        exact absurd h (by simp)

/-- A claim call can fail with the not-recipient error only at the recipient
check itself: no later step of `claim_stream` produces that error code. -/
lemma claim_stream_not_recipient_err {caller sid amt now : Nat} {gs : GState}
    {s : Stream} (hget : tget gs.store.streams sid = some s)
    (h : claim_stream caller sid amt now gs
      = .error (.code E_NOT_STREAM_RECIPIENT)) :
    s.recipient ≠ caller := by
  unfold claim_stream at h
  rw [hget] at h
  simp only [getOr_some] at h
  by_cases hr : s.recipient ≠ caller
  · exact hr
  rw [if_neg hr] at h
  split at h
  · exact absurd (Except.error.inj h) (by decide)
  cases hcalc : calculate_claimable_internal s now with
  | error e =>
    rw [hcalc, mbind_error_left] at h
    have := calc_error_arith hcalc
    subst this
    exact absurd (Except.error.inj h) (by decide)
  | ok claimable =>
    rw [hcalc, mbind_ok_left] at h
    split at h
    · exact absurd (Except.error.inj h) (by decide)
    cases hadd : u64add s.claimed_amount (claimAmountOf amt claimable) with
    | error e =>
      rw [hadd, mbind_error_left] at h
      have : e = .arith := u64chk_err hadd
      subst this
      exact absurd (Except.error.inj h) (by decide)
    | ok claimed2 =>
      rw [hadd, mbind_ok_left] at h
      split at h
      · exact absurd (Except.error.inj h) (by decide)
      · exact absurd h (by simp)

-- ==========================================================================
-- The specification-side accrual formula
-- ==========================================================================

/-- The claimable-amount formula exactly as the specification words it
(spec section 4.1, claim C4): 0 when the stream is not ACTIVE, 0 before
`start_time`, otherwise
`min((min(now, end_time) - last_claim_time) * rate_per_second,
     total_amount - claimed_amount)`. -/
def claimable_spec (s : Stream) (now : Nat) : Nat :=
  if s.status ≠ STATUS_ACTIVE then 0
  else if now < s.start_time then 0
  else min ((min now s.end_time - s.last_claim_time) * s.rate_per_second)
    (s.total_amount - s.claimed_amount)

-- ==========================================================================
-- Concrete traces used by counterexamples, bug demonstrations and witnesses
-- ==========================================================================

/-- Stream 1 funded with 10000 (fee 25, net 9975, rate 99) streaming from
t=100 to t=200; the recipient claims 1 unit at t=300, after `end_time`,
which sets `last_claim_time := 300 > end_time` on a still-ACTIVE stream. -/
def lateClaimTrace : List Op :=
  [.create 1 2 [] 10000 100 100 "" 50, .claim 2 1 1 300]

/-- The engine state reached by `lateClaimTrace`. -/
def lateClaimState : GState := execList lateClaimTrace (initState 0)

/-- The stream record reached by `lateClaimTrace`. -/
def lateClaimStream : Stream :=
  { id := 1, sender := 1, recipient := 2, recipient_social_hash := [],
    total_amount := 9975, claimed_amount := 1, rate_per_second := 99,
    start_time := 100, end_time := 200, last_claim_time := 300,
    message := "", status := STATUS_ACTIVE, created_at := 50 }

/-- Stream 1 funded with 400 (fee 1, net 399, rate 399) streaming from t=1
to t=2, claimed in full at t=2 (so `claimed_amount = total_amount` and the
status flipped to COMPLETED). -/
def fullClaimTrace : List Op :=
  [.create 1 2 [] 400 1 1 "" 1, .claim 2 1 0 2]

/-- The engine state reached by `fullClaimTrace`. -/
def fullClaimState : GState := execList fullClaimTrace (initState 0)

/-- The stream record reached by `fullClaimTrace`. -/
def fullClaimStream : Stream :=
  { id := 1, sender := 1, recipient := 2, recipient_social_hash := [],
    total_amount := 399, claimed_amount := 399, rate_per_second := 399,
    start_time := 1, end_time := 2, last_claim_time := 2,
    message := "", status := STATUS_COMPLETED, created_at := 1 }

/-- A single identity-addressed stream (hash [1], placeholder recipient 5). -/
def rebindState1 : GState :=
  execList [.create 1 5 [1] 10000 100 100 "" 50] (initState 0)

/-- `rebindState1` after a rebind presenting hash [1] with new address 5 —
the same address as the placeholder. -/
def rebindSameState : GState := step rebindState1 (.updateRecipient 0 1 5 [1])

/-- `rebindSameState` after the old placeholder address 5 claims. -/
def rebindSameClaimed : GState := step rebindSameState (.claim 5 1 0 150)

/-- `rebindState1` after a rebind presenting hash [1] with new address 9. -/
def rebindState2 : GState := step rebindState1 (.updateRecipient 0 1 9 [1])

/-- A single wallet-addressed stream (empty identity hash, recipient 7). -/
def walletState1 : GState :=
  execList [.create 1 7 [] 10000 100 100 "" 50] (initState 0)

/-- `walletState1` after a rebind presenting the empty hash with address 9. -/
def walletState2 : GState := step walletState1 (.updateRecipient 0 1 9 [])

/-- A single wallet-addressed mid-life stream (net 9975, rate 99, t=100..200,
escrow 10000). -/
def midStreamState : GState :=
  execList [.create 1 2 [] 10000 100 100 "" 50] (initState 0)

/-- `midStreamState` after the sender cancels at t=150. -/
def cancelledState : GState := step midStreamState (.cancel 1 1 150)

/-- A dust stream: amount 400 (fee 1, net 399) over duration 1000, so
`rate_per_second = 399 / 1000 = 0`. -/
def dustState : GState :=
  execList [.create 1 2 [] 400 1000 100 "" 50] (initState 0)

-- ==========================================================================
-- The claims
-- ==========================================================================

/-- Claim C1.  The claim asserts that the subtraction
`elapsed = effective_time - last_claim_time` in the accrual calculation
never underflows on any stream state reachable by create/claim/cancel
operations, including states where a claim was made later than `end_time`.
The code violates this: a partial claim at t=300 on a stream with
`end_time = 200` leaves an ACTIVE stream with `last_claim_time = 300`, and
every later accrual computation (hence every later claim or cancel) aborts
on u64 underflow, stranding the remaining escrow.  This theorem exhibits
that reachable state and the aborts. -/
theorem C1_elapsed_underflow_reachable :
    tget lateClaimState.store.streams 1 = some lateClaimStream ∧
    lateClaimStream.status = STATUS_ACTIVE ∧
    lateClaimStream.end_time < lateClaimStream.last_claim_time ∧
    u64sub (if lateClaimStream.end_time < 400 then lateClaimStream.end_time
      else 400) lateClaimStream.last_claim_time = .error .arith ∧
    calculate_claimable_internal lateClaimStream 400 = .error .arith ∧
    claim_stream 2 1 0 400 lateClaimState = .error .arith ∧
    cancel_stream 1 1 400 lateClaimState = .error .arith :=
  ⟨rfl, rfl, by decide, rfl, rfl, rfl, rfl⟩

/-- Claim C2.  Conservation: after every sequence of engine operations
(create, claim, cancel, fee withdrawal, and also the admin variants,
rebinding and registration, none of which move tokens), the pooled escrow
balance equals the sum over all ACTIVE streams of
`total_amount - claimed_amount` plus the outstanding collected-fee
balance. -/
theorem C2_conservation (admin : Nat) (ops : List Op) :
    (execList ops (initState admin)).store.escrow
      = sumActive (execList ops (initState admin)).store.streams
        + (execList ops (initState admin)).store.fee_collected :=
  (inv_execList ops (initState admin) (inv_init admin)).1

/-- Claim C9.  The claim asserts that a wallet-addressed stream (empty
identity hash) has no rebinding path: every `update_stream_recipient` call
on it is rejected or a no-op.  The code violates this: presenting the empty
hash passes the stored-hash equality check, so the admin can redirect a
wallet-addressed stream to any fresh address.  Here stream 1 is created
wallet-addressed to 7, and a rebind with the empty hash succeeds and sets
the recipient to 9. -/
theorem C9_wallet_rebind_succeeds :
    (tget walletState1.store.streams 1).map Stream.recipient_social_hash
      = some [] ∧
    (tget walletState1.store.streams 1).map Stream.recipient = some 7 ∧
    update_stream_recipient 0 1 9 [] walletState1 = .ok (walletState2, []) ∧
    (tget walletState2.store.streams 1).map Stream.recipient = some 9 :=
  ⟨rfl, rfl, rfl, rfl⟩

/-- Claim C4, counterexample.  The claim states that for EVERY stream and
every time the claimable amount equals the min-formula and lies within
[0, total - claimed].  On the stream reached by `lateClaimTrace`
(reachable, see the state equality below) the computation aborts with a u64
underflow at t=400 instead of returning the formula value. -/
theorem C4_claimable_formula_cex :
    tget lateClaimState.store.streams 1 = some lateClaimStream ∧
    calculate_claimable_internal lateClaimStream 400 = .error .arith ∧
    calculate_claimable_internal lateClaimStream 400
      ≠ .ok (claimable_spec lateClaimStream 400) :=
  ⟨rfl, rfl, by decide⟩

/-- Claim C4, amended.  For every stream with
`claimed_amount ≤ total_amount`,
`last_claim_time ≤ min(now, end_time)` and
`(min(now, end_time) - last_claim_time) * rate_per_second` within u64 range,
the claimable amount equals
`0` if the status is not ACTIVE, `0` if `now < start_time`, and otherwise
`min((min(now, end_time) - last_claim_time) * rate_per_second,
total_amount - claimed_amount)` (this is `claimable_spec`), and the result
lies between 0 and `total_amount - claimed_amount` inclusive.  Without the
`last_claim_time` bound the computation aborts (see the counterexample). -/
theorem C4_claimable_formula (s : Stream) (now : Nat)
    (h1 : s.claimed_amount ≤ s.total_amount)
    (h2 : s.last_claim_time ≤ min now s.end_time)
    (h3 : (min now s.end_time - s.last_claim_time) * s.rate_per_second
      ≤ U64_MAX) :
    calculate_claimable_internal s now = .ok (claimable_spec s now) ∧
    claimable_spec s now ≤ s.total_amount - s.claimed_amount := by
  constructor
  · unfold calculate_claimable_internal claimable_spec
    by_cases hs : s.status ≠ STATUS_ACTIVE
    · rw [if_pos hs, if_pos hs]
    by_cases hn : now < s.start_time
    · rw [if_neg hs, if_neg hs, if_pos hn, if_pos hn]
    rw [if_neg hs, if_neg hs, if_neg hn, if_neg hn]
    have heff : (if s.end_time < now then s.end_time else now)
        = min now s.end_time := by
      rcases le_or_lt now s.end_time with hle | hlt
      · rw [if_neg (not_lt.mpr hle)]
        exact (min_eq_left hle).symm
      · rw [if_pos hlt]
        exact (min_eq_right hlt.le).symm
    rw [heff, u64sub_eq_ok h2]
    simp only [mbind_ok_left]
    rw [u64mul_eq_ok h3]
    simp only [mbind_ok_left]
    rw [u64sub_eq_ok h1]
    simp only [mbind_ok_left]
    congr 1
    split <;> omega
  · unfold claimable_spec
    split
    · exact Nat.zero_le _
    split
    · exact Nat.zero_le _
    · exact min_le_right _ _

/-- Claim C4, witness: the freshly created stream of `lateClaimTrace` at
t=150 has claimable 4950 = min(50 * 99, 9975), within bounds. -/
theorem C4_claimable_formula_witness :
    calculate_claimable_internal
        (createdStream 1 2 [] 10000 100 100 "" 50 1) 150
      = .ok (claimable_spec (createdStream 1 2 [] 10000 100 100 "" 50 1) 150) ∧
    claimable_spec (createdStream 1 2 [] 10000 100 100 "" 50 1) 150
      ≤ (createdStream 1 2 [] 10000 100 100 "" 50 1).total_amount
        - (createdStream 1 2 [] 10000 100 100 "" 50 1).claimed_amount :=
  C4_claimable_formula (createdStream 1 2 [] 10000 100 100 "" 50 1) 150
    (by decide) (by decide) (by decide)

/-- Claim C7.  After any sequence of engine operations from a fresh engine:
every stream in the table satisfies `claimed_amount ≤ total_amount` (the
lower bound 0 is inherent to the u64 representation), and across any further
sequence of operations the stream persists and its `claimed_amount` never
decreases. -/
theorem C7_claimed_bounded_monotone (admin : Nat) (ops more : List Op)
    (k : Nat) (s : Stream)
    (h : tget (execList ops (initState admin)).store.streams k = some s) :
    s.claimed_amount ≤ s.total_amount ∧
    ∃ s2, tget (execList more (execList ops (initState admin))).store.streams k
        = some s2 ∧ s.claimed_amount ≤ s2.claimed_amount :=
  ⟨((inv_execList ops (initState admin) (inv_init admin)).2.2 k s h).1,
    claimed_mono_execList more _ h⟩

/-- Claim C7, witness: the stream of `lateClaimTrace` after creation has
claimed 0 ≤ total 9975; after the further claim of 1 at t=300 it has
claimed 1 ≥ 0. -/
theorem C7_claimed_bounded_monotone_witness :
    (createdStream 1 2 [] 10000 100 100 "" 50 1).claimed_amount
      ≤ (createdStream 1 2 [] 10000 100 100 "" 50 1).total_amount ∧
    ∃ s2, tget (execList [Op.claim 2 1 1 300]
        (execList [Op.create 1 2 [] 10000 100 100 "" 50]
          (initState 0))).store.streams 1
      = some s2 ∧
      (createdStream 1 2 [] 10000 100 100 "" 50 1).claimed_amount
        ≤ s2.claimed_amount :=
  C7_claimed_bounded_monotone 0 [Op.create 1 2 [] 10000 100 100 "" 50]
    [Op.claim 2 1 1 300] 1 (createdStream 1 2 [] 10000 100 100 "" 50 1) rfl

/-- Claim C8, counterexample.  The claim states that once
`claimed_amount = total_amount` a further claim fails with the
zero-claimable ("nothing to do") error.  On the code the completing claim
flips the status to COMPLETED, so the next claim fails the ACTIVE check
first and reports the stream-not-active (invalid state) error instead. -/
theorem C8_completed_claim_error_cex :
    tget fullClaimState.store.streams 1 = some fullClaimStream ∧
    fullClaimStream.claimed_amount = fullClaimStream.total_amount ∧
    claim_stream 2 1 0 3 fullClaimState
      = .error (.code E_STREAM_NOT_ACTIVE) ∧
    claim_stream 2 1 0 3 fullClaimState
      ≠ .error (.code E_ZERO_CLAIMABLE) :=
  ⟨rfl, rfl, rfl, by decide⟩

/-- Claim C8, amended.  Once a reachable stream has
`claimed_amount = total_amount`, its status is no longer ACTIVE, every
further claim call by the recipient fails with the stream-not-active
(invalid state) error, and no claim call by anyone succeeds (so no further
funds are ever disbursed). -/
theorem C8_completed_claims_fail (admin : Nat) (ops : List Op) (sid : Nat)
    (s : Stream)
    (h : tget (execList ops (initState admin)).store.streams sid = some s)
    (hfull : s.claimed_amount = s.total_amount) :
    s.status ≠ STATUS_ACTIVE ∧
    (∀ amt now, claim_stream s.recipient sid amt now
        (execList ops (initState admin))
      = .error (.code E_STREAM_NOT_ACTIVE)) ∧
    (∀ caller amt now, ¬ ∃ gs2 outs, claim_stream caller sid amt now
        (execList ops (initState admin)) = .ok (gs2, outs)) := by
  have hInv := inv_execList ops (initState admin) (inv_init admin)
  have hok := hInv.2.2 sid s h
  have hstat : s.status ≠ STATUS_ACTIVE := by
    intro hact
    have := hok.2 hact
    omega
  refine ⟨hstat, ?_, ?_⟩
  · intro amt now
    unfold claim_stream
    rw [h]
    simp only [getOr_some]
    rw [if_neg (not_not_intro rfl), if_pos hstat]
  · intro caller amt now
    rintro ⟨gs2, outs, hclaim⟩
    obtain ⟨stream, claimable, ca, hget2, _, hstat2, _⟩ :=
      claim_stream_ok hclaim
    rw [h] at hget2
    obtain rfl := Option.some.inj hget2
    exact hstat hstat2

/-- Claim C8, witness: on the completed stream of `fullClaimTrace`, the
recipient claim at t=3 fails with the stream-not-active error. -/
theorem C8_completed_claims_fail_witness :
    fullClaimStream.status ≠ STATUS_ACTIVE ∧
    claim_stream 2 1 0 3 fullClaimState
      = .error (.code E_STREAM_NOT_ACTIVE) := by
  have h := C8_completed_claims_fail 0 fullClaimTrace 1 fullClaimStream rfl rfl
  exact ⟨h.1, h.2.1 0 3⟩

/-- Claim C3, counterexample.  The claim asserts that after every successful
rebind a subsequent claim rejects the old placeholder address.  Rebinding to
the placeholder address itself (new = old) succeeds, and the old placeholder
address is then still authorized — its claim goes through and is paid. -/
theorem C3_rebind_cex :
    (tget rebindState1.store.streams 1).map Stream.recipient = some 5 ∧
    update_stream_recipient 0 1 5 [1] rebindState1
      = .ok (rebindSameState, []) ∧
    claim_stream 5 1 0 150 rebindSameState
      = .ok (rebindSameClaimed, [(5, 4950)]) :=
  ⟨rfl, rfl, rfl⟩

/-- Claim C3, amended.  For every rebind: if the presented hash differs from
the stored `recipient_social_hash` (with the caller being the admin and the
stream existing), the operation fails with the hash-mismatch error and — the
transaction being atomic — no state changes; if it succeeds, the stream's
recipient equals the new address, the registry maps the identity hash to
that same address, a subsequent claim authorizes the new address (it can
never fail the recipient check), and it rejects the old address with the
not-recipient error provided the old address differs from the new one. -/
theorem C3_rebind (admin_addr sid nr : Nat) (hash : List Nat) (gs : GState) :
    (∀ s, gs.store.admin = admin_addr →
      tget gs.store.streams sid = some s →
      s.recipient_social_hash ≠ hash →
      update_stream_recipient admin_addr sid nr hash gs
        = .error (.code E_SOCIAL_HASH_MISMATCH)) ∧
    (∀ gs2 outs s,
      update_stream_recipient admin_addr sid nr hash gs = .ok (gs2, outs) →
      tget gs.store.streams sid = some s →
      tget gs2.store.streams sid = some { s with recipient := nr } ∧
      tget gs2.mapping.social_to_address hash = some nr ∧
      (∀ amt now, claim_stream nr sid amt now gs2
        ≠ .error (.code E_NOT_STREAM_RECIPIENT)) ∧
      (s.recipient ≠ nr → ∀ amt now,
        claim_stream s.recipient sid amt now gs2
          = .error (.code E_NOT_STREAM_RECIPIENT))) := by
  constructor
  · intro s hadm hget hmis
    unfold update_stream_recipient
    rw [if_neg (show ¬(gs.store.admin ≠ admin_addr) from not_not_intro hadm)]
    rw [hget]
    simp only [getOr_some]
    rw [if_pos hmis]
  · intro gs2 outs s hE hget
    obtain ⟨stream, hAdm, hget2, hhash, hstr, hesc, hfee, hnext, hadm2, hs2a,
      ha2s, hidx, houts⟩ := update_recipient_ok hE
    rw [hget] at hget2
    obtain rfl := Option.some.inj hget2
    have hga : tget gs2.store.streams sid
        = some { s with recipient := nr } := by
      rw [hstr]
      exact tget_tset_self hget _
    refine ⟨hga, ?_, ?_, ?_⟩
    · rw [hs2a, tget_cons_pair, if_pos rfl]
    · intro amt now hcl
      exact claim_stream_not_recipient_err hga hcl rfl
    · intro hne amt now
      unfold claim_stream
      rw [hga]
      simp only [getOr_some]
      have h5 : ({ s with recipient := nr } : Stream).recipient
          ≠ s.recipient := fun hh => hne hh.symm
      rw [if_pos h5]

/-- Claim C3, witness: after rebinding stream 1 (hash [1], placeholder 5) to
address 9, a claim by the old placeholder 5 fails with the not-recipient
error. -/
theorem C3_rebind_witness :
    claim_stream (createdStream 1 5 [1] 10000 100 100 "" 50 1).recipient
        1 0 150 rebindState2
      = .error (.code E_NOT_STREAM_RECIPIENT) :=
  ((C3_rebind 0 1 9 [1] rebindState1).2 rebindState2 []
    (createdStream 1 5 [1] 10000 100 100 "" 50 1) rfl rfl).2.2.2
    (by decide) 0 150

/-- Claim C5.  Every successful sender cancellation of an ACTIVE stream
disburses exactly the claimable amount computed at the moment of
cancellation to the recipient, refunds `total - claimed - claimable` to the
sender, sets the status to CANCELLED, and leaves every other stream field —
in particular `claimed_amount` and `last_claim_time` — unchanged. -/
theorem C5_cancel_split (caller sid now : Nat) (gs gs2 : GState)
    (outs : Transfers) (s : Stream) (c : Nat)
    (hget : tget gs.store.streams sid = some s)
    (hcalc : calculate_claimable_internal s now = .ok c)
    (hE : cancel_stream caller sid now gs = .ok (gs2, outs)) :
    caller = s.sender ∧ s.status = STATUS_ACTIVE ∧
    outs = (if 0 < c then [(s.recipient, c)] else [])
      ++ (if 0 < s.total_amount - s.claimed_amount - c
          then [(caller, s.total_amount - s.claimed_amount - c)] else []) ∧
    tget gs2.store.streams sid
      = some { s with status := STATUS_CANCELLED } := by
  obtain ⟨stream, claimable, hget2, hsend, hstat, hcalc2, hcl, hclm, hesc1,
    hesc2, hstr, hesc, hfee, hnext, hadm, hmap, hidx, houts⟩ :=
    cancel_stream_ok hE
  rw [hget] at hget2
  obtain rfl := Option.some.inj hget2
  have hc : c = claimable := Except.ok.inj (hcalc.symm.trans hcalc2)
  subst hc
  refine ⟨hsend.symm, hstat, houts, ?_⟩
  rw [hstr]
  exact tget_tset_self hget _

/-- Claim C5, witness: cancelling the 10000-funded stream (net 9975,
rate 99, t=100..200) at t=150 pays 4950 to the recipient, refunds 5025 to
the sender, and flips only the status to CANCELLED. -/
theorem C5_cancel_split_witness :
    (1 : Nat) = (createdStream 1 2 [] 10000 100 100 "" 50 1).sender ∧
    (createdStream 1 2 [] 10000 100 100 "" 50 1).status = STATUS_ACTIVE ∧
    ([(2, 4950), (1, 5025)] : Transfers)
      = (if 0 < (4950 : Nat)
         then [((createdStream 1 2 [] 10000 100 100 "" 50 1).recipient, 4950)]
         else [])
        ++ (if 0 < (createdStream 1 2 [] 10000 100 100 "" 50 1).total_amount
              - (createdStream 1 2 [] 10000 100 100 "" 50 1).claimed_amount
              - 4950
            then [(1,
              (createdStream 1 2 [] 10000 100 100 "" 50 1).total_amount
              - (createdStream 1 2 [] 10000 100 100 "" 50 1).claimed_amount
              - 4950)]
            else []) ∧
    tget cancelledState.store.streams 1
      = some { createdStream 1 2 [] 10000 100 100 "" 50 1 with
               status := STATUS_CANCELLED } :=
  C5_cancel_split 1 1 150 midStreamState cancelledState
    [(2, 4950), (1, 5025)] (createdStream 1 2 [] 10000 100 100 "" 50 1)
    4950 rfl rfl rfl

/-- Claim C6.  For every claim call on an existing ACTIVE stream by its
recipient: if the claimable amount is 0 the call fails with the
zero-claimable error (atomicity of the transaction means no state changes);
otherwise (given the spec's standing invariants: the escrow covers the
claimable amount and `total_amount` fits in u64) the call succeeds and
disburses exactly `claimAmountOf requested claimable`, i.e. the requested
amount when `0 < requested ≤ claimable` and the claimable amount when the
request is 0 or exceeds claimable — over-requests are capped, never
rejected. -/
theorem C6_claim_amount (caller sid amt now : Nat) (gs : GState) (s : Stream)
    (hget : tget gs.store.streams sid = some s)
    (hstat : s.status = STATUS_ACTIVE)
    (hrec : s.recipient = caller) :
    (calculate_claimable_internal s now = .ok 0 →
      claim_stream caller sid amt now gs = .error (.code E_ZERO_CLAIMABLE)) ∧
    (∀ c, calculate_claimable_internal s now = .ok c → 0 < c →
      c ≤ gs.store.escrow → s.total_amount ≤ U64_MAX →
      ∃ gs2, claim_stream caller sid amt now gs
        = .ok (gs2, [(caller, claimAmountOf amt c)])) := by
  constructor
  · intro hcalc0
    unfold claim_stream
    rw [hget]
    simp only [getOr_some]
    rw [if_neg (show ¬(s.recipient ≠ caller) from not_not_intro hrec)]
    rw [if_neg (show ¬(s.status ≠ STATUS_ACTIVE) from not_not_intro hstat)]
    rw [hcalc0]
    simp only [mbind_ok_left]
    simp
  · intro c hcalc hpos hesc htot
    have hca := claimAmountOf_le amt c
    have hle1 := calc_claimable_le hcalc
    have hle2 := calc_claimable_pos_claimed_le hcalc hpos
    have hfit : s.claimed_amount + claimAmountOf amt c ≤ U64_MAX := by omega
    unfold claim_stream
    rw [hget]
    simp only [getOr_some]
    rw [if_neg (show ¬(s.recipient ≠ caller) from not_not_intro hrec)]
    rw [if_neg (show ¬(s.status ≠ STATUS_ACTIVE) from not_not_intro hstat)]
    rw [hcalc]
    simp only [mbind_ok_left]
    rw [if_neg (show ¬(c = 0) from Nat.pos_iff_ne_zero.mp hpos)]
    rw [u64add_eq_ok hfit]
    simp only [mbind_ok_left]
    rw [if_neg (not_lt.mpr (le_trans hca hesc))]
    exact ⟨_, rfl⟩

/-- Claim C6, witness: on the mid-life stream (claimable 4950 at t=150), an
over-request of 999999 is capped at 4950 and the claim succeeds. -/
theorem C6_claim_amount_witness :
    ∃ gs2, claim_stream 2 1 999999 150 midStreamState
      = .ok (gs2, [(2, claimAmountOf 999999 4950)]) :=
  (C6_claim_amount 2 1 999999 150 midStreamState
    (createdStream 1 2 [] 10000 100 100 "" 50 1) rfl rfl rfl).2 4950 rfl
    (by decide) (by decide) (by decide)

/-- A stream whose rate is 0 and that has never been claimed accrues nothing
at any time: the accrual calculator returns 0 whatever the clock says. -/
lemma calc_zero_rate {s : Stream} (hrate : s.rate_per_second = 0)
    (hlast : s.last_claim_time ≤ s.start_time)
    (hse : s.start_time ≤ s.end_time)
    (hcl : s.claimed_amount ≤ s.total_amount) (t : Nat) :
    calculate_claimable_internal s t = .ok 0 := by
  unfold calculate_claimable_internal
  split
  · rfl
  split
  · rfl
  rename_i hact hstart
  have heff : s.last_claim_time ≤ (if s.end_time < t then s.end_time else t) := by
    split <;> omega
  rw [u64sub_eq_ok heff]
  simp only [mbind_ok_left]
  have hmul : u64mul ((if s.end_time < t then s.end_time else t)
      - s.last_claim_time) s.rate_per_second = .ok 0 := by
    rw [hrate]
    show u64chk (((if s.end_time < t then s.end_time else t)
      - s.last_claim_time) * 0) = .ok 0
    rw [Nat.mul_zero]
    rfl
  rw [hmul]
  simp only [mbind_ok_left]
  rw [u64sub_eq_ok hcl]
  simp only [mbind_ok_left]
  rw [if_neg (Nat.not_lt_zero _)]

/-- Claim C10.  Whenever a stream is created whose net amount (after the fee
deduction) is smaller than its duration, the rate is floor-truncated to 0;
the claimable amount is then 0 at every time, every claim call fails with
the zero-claimable error, and a sender cancellation at any time refunds the
entire `total_amount` to the sender with nothing to the recipient — the
escrowed net amount is recoverable only through cancellation. -/
theorem C10_dust_stream (sa ra : Nat) (hash : List Nat)
    (amount dur st0 : Nat) (msg : String) (now : Nat) (gs gs2 : GState)
    (outs : Transfers)
    (hE : create_stream sa ra hash amount dur st0 msg now gs = .ok (gs2, outs))
    (hdust : amount - amount * PROTOCOL_FEE_BPS / BPS_DENOMINATOR < dur) :
    ∃ st, tget gs2.store.streams gs.store.next_stream_id = some st ∧
      st.rate_per_second = 0 ∧
      0 < st.total_amount ∧
      (∀ t, calculate_claimable_internal st t = .ok 0) ∧
      (∀ amt t, claim_stream ra gs.store.next_stream_id amt t gs2
        = .error (.code E_ZERO_CLAIMABLE)) ∧
      (∀ t, ∃ gs3, cancel_stream sa gs.store.next_stream_id t gs2
        = .ok (gs3, [(sa, st.total_amount)])) := by
  obtain ⟨hAmt, hDur, hmul, hfee, hcont, hstr, hesc, hfeec, hnext, hadm, hmap,
    houts⟩ := create_stream_ok hE
  have htget : tget gs2.store.streams gs.store.next_stream_id
      = some (createdStream sa ra hash amount dur st0 msg now
          gs.store.next_stream_id) := by
    rw [hstr, tget_cons_pair, if_pos rfl]
  have hrate : (createdStream sa ra hash amount dur st0 msg now
      gs.store.next_stream_id).rate_per_second = 0 := Nat.div_eq_of_lt hdust
  have htot_pos : 0 < amount - amount * PROTOCOL_FEE_BPS / BPS_DENOMINATOR := by
    have h0 : 0 < amount := Nat.pos_of_ne_zero hAmt
    have hlt : amount * PROTOCOL_FEE_BPS / BPS_DENOMINATOR < amount := by
      rw [Nat.div_lt_iff_lt_mul (by decide : 0 < BPS_DENOMINATOR)]
      show amount * PROTOCOL_FEE_BPS < amount * BPS_DENOMINATOR
      unfold PROTOCOL_FEE_BPS BPS_DENOMINATOR
      omega
    omega
  have hcalc0 : ∀ t, calculate_claimable_internal
      (createdStream sa ra hash amount dur st0 msg now
        gs.store.next_stream_id) t = .ok 0 :=
    fun t => calc_zero_rate hrate (le_refl _) (Nat.le_add_right _ _)
      (Nat.zero_le _) t
  have htoteq : (createdStream sa ra hash amount dur st0 msg now
      gs.store.next_stream_id).total_amount
      = amount - amount * PROTOCOL_FEE_BPS / BPS_DENOMINATOR := rfl
  have hcl0eq : (createdStream sa ra hash amount dur st0 msg now
      gs.store.next_stream_id).claimed_amount = 0 := rfl
  refine ⟨_, htget, hrate, htot_pos, hcalc0, ?_, ?_⟩
  · intro amt t
    unfold claim_stream
    rw [htget]
    simp only [getOr_some]
    rw [if_neg (show ¬((createdStream sa ra hash amount dur st0 msg now
      gs.store.next_stream_id).recipient ≠ ra) from not_not_intro rfl)]
    rw [if_neg (show ¬((createdStream sa ra hash amount dur st0 msg now
      gs.store.next_stream_id).status ≠ STATUS_ACTIVE) from not_not_intro rfl)]
    rw [hcalc0 t]
    simp only [mbind_ok_left]
    simp
  · intro t
    unfold cancel_stream
    rw [htget]
    simp only [getOr_some]
    rw [if_neg (show ¬((createdStream sa ra hash amount dur st0 msg now
      gs.store.next_stream_id).sender ≠ sa) from not_not_intro rfl)]
    rw [if_neg (show ¬((createdStream sa ra hash amount dur st0 msg now
      gs.store.next_stream_id).status ≠ STATUS_ACTIVE) from not_not_intro rfl)]
    rw [hcalc0 t]
    simp only [mbind_ok_left]
    rw [u64sub_eq_ok (show (createdStream sa ra hash amount dur st0 msg now
      gs.store.next_stream_id).claimed_amount
      ≤ (createdStream sa ra hash amount dur st0 msg now
        gs.store.next_stream_id).total_amount from Nat.zero_le _)]
    simp only [mbind_ok_left]
    rw [u64sub_eq_ok (Nat.zero_le _)]
    simp only [mbind_ok_left]
    exact ⟨_, by
      split
      · rename_i hC1
        exact absurd hC1 (Nat.not_lt_zero _)
      split
      · rename_i hC2
        exfalso
        rw [hesc, htoteq, hcl0eq] at hC2
        generalize amount * PROTOCOL_FEE_BPS / BPS_DENOMINATOR = F at hC2
        omega
      rw [if_neg (lt_irrefl 0), List.nil_append]
      simp only [hcl0eq, Nat.sub_zero]
      rw [if_pos (show 0 < (createdStream sa ra hash amount dur st0 msg now
        gs.store.next_stream_id).total_amount from by
          rw [htoteq]
          exact htot_pos)]⟩

/-- Claim C10, witness: a stream of amount 400 (net 399) over duration 1000
has rate 0; the recipient claim at t=500 fails with the zero-claimable
error. -/
theorem C10_dust_stream_witness :
    claim_stream 2 1 0 500 dustState = .error (.code E_ZERO_CLAIMABLE) := by
  obtain ⟨st, _, _, _, _, hclaim, _⟩ := C10_dust_stream 1 2 [] 400 1000 100
    "" 50 (initState 0) dustState [] rfl (by decide)
  exact hclaim 0 500

end StreamGift
